import Mathlib

set_option maxRecDepth 8000

/-!
Verification of the mind-meld conversation-search core against its
natural-language specification.

The development shallowly embeds the TypeScript sources:

* `src/utils/vector-math.ts` — element-wise vector arithmetic over ℝ
  (floating-point numbers are idealised as real numbers; the dimension
  guard that `throw`s in TypeScript is modelled with `Except`);
* `src/mcp/search.ts` — the Rocchio-style query composer, the filter
  predicates and the three-pass hybrid ranker with first-wins dedup;
* `src/services/compute-centroids.ts` — the paginated centroid
  aggregator (the relational store is modelled as the id-sorted list of
  rows the SQL join returns, the vector store as a partial map from
  chroma id to vector);
* `src/embeddings/ollama.ts` — the batch embedding client with its
  NaN fallback chain (the external inference endpoint is an oracle
  parameter returning either vectors of possibly non-finite entries or
  a thrown error whose message may mention NaN);
* `src/embeddings/batch.ts` — noise classification, failure-record
  upserts (`markUnembeddable`), candidate selection with the healing
  eligibility predicate, and one iteration of the production loop.

External collaborators (embedding endpoint, summariser, vector index
queries, full-text match) are oracle parameters; SQL queries are
translated clause by clause into list operations over the row types the
queries join.
-/

/-! ## Vector arithmetic (`src/utils/vector-math.ts`) -/

/-- `subtractVectors(a, b)`: element-wise `a - b`; throws on dimension
mismatch, modelled with `Except`. -/
def subtractVectors (a b : List ℝ) : Except String (List ℝ) :=
  if a.length = b.length then .ok (List.zipWith (fun x y => x - y) a b)
  else .error "Vector dimension mismatch"

/-- `addVectors(a, b)`: element-wise `a + b`; throws on dimension
mismatch. -/
def addVectors (a b : List ℝ) : Except String (List ℝ) :=
  if a.length = b.length then .ok (List.zipWith (fun x y => x + y) a b)
  else .error "Vector dimension mismatch"

/-- `scaleVector(vector, scalar)`: multiply every component. -/
def scaleVector (vector : List ℝ) (scalar : ℝ) : List ℝ :=
  vector.map (fun val => val * scalar)

/-- `normalizeVector(v)`: divide by the Euclidean magnitude, returning
`v` unchanged when the magnitude is zero. -/
noncomputable def normalizeVector (vector : List ℝ) : List ℝ :=
  let magnitude := Real.sqrt (vector.foldl (fun sum val => sum + val * val) 0)
  if magnitude = 0 then vector else vector.map (fun val => val / magnitude)

/-! Spec-side total element-wise operations (used only to state the
linear-combination formulas the spec describes; they agree with the
guarded source operations whenever dimensions match). -/

/-- Element-wise sum, total (spec-side). -/
def vecAdd (a b : List ℝ) : List ℝ := List.zipWith (· + ·) a b

/-- Element-wise difference, total (spec-side). -/
def vecSub (a b : List ℝ) : List ℝ := List.zipWith (· - ·) a b

/-! ## Query vector composition (`src/mcp/search.ts`) -/

/-- `UNLIKE_DAMPENING`: Rocchio dampening factor for negative weights. -/
noncomputable def UNLIKE_DAMPENING : ℝ := 0.2

/-- A weighted exemplar whose centroid was resolved from the store. -/
structure ResolvedCentroid where
  id : String
  weight : ℝ
  centroid : List ℝ

/-- JavaScript truthiness of an optional string parameter:
`undefined` and the empty string are falsy. -/
def truthyStr : Option String → Bool
  | none => false
  | some s => s ≠ ""

/-- `composeQueryVector`: start from the query embedding (or the
1024-dimensional zero vector when no query text), optionally subtract
the negative-query embedding, add each positive centroid scaled by its
weight, subtract each negative centroid scaled by `weight *
UNLIKE_DAMPENING`, and unit-normalize.  The embedding endpoint is the
oracle `embed`; dimension-mismatch exceptions propagate in `Except`. -/
noncomputable def composeQueryVector (embed : String → List ℝ)
    (queryText negativeQuery : Option String)
    (likeSessionCentroids unlikeSessionCentroids likeProjectCentroids
      unlikeProjectCentroids : List ResolvedCentroid) :
    Except String (List ℝ) :=
  let v0 : List ℝ :=
    if truthyStr queryText then embed (queryText.getD "") else List.replicate 1024 0
  (if truthyStr negativeQuery then subtractVectors v0 (embed (negativeQuery.getD ""))
    else pure v0) >>= fun v1 =>
  likeSessionCentroids.foldlM
    (fun v r => addVectors v (scaleVector r.centroid r.weight)) v1 >>= fun v2 =>
  unlikeSessionCentroids.foldlM
    (fun v r => subtractVectors v (scaleVector r.centroid (r.weight * UNLIKE_DAMPENING))) v2
    >>= fun v3 =>
  likeProjectCentroids.foldlM
    (fun v r => addVectors v (scaleVector r.centroid r.weight)) v3 >>= fun v4 =>
  unlikeProjectCentroids.foldlM
    (fun v r => subtractVectors v (scaleVector r.centroid (r.weight * UNLIKE_DAMPENING))) v4
    >>= fun v5 =>
  pure (normalizeVector v5)

/-- Spec-side: sum of `centroid * weight` over the resolved positive
exemplars. -/
noncomputable def weightedCentroidSum (l : List ResolvedCentroid) : List ℝ :=
  l.foldr (fun r acc => vecAdd (scaleVector r.centroid r.weight) acc) (List.replicate 1024 0)

/-- Spec-side: sum of `centroid * weight * UNLIKE_DAMPENING` over the
resolved negative exemplars. -/
noncomputable def dampenedCentroidSum (l : List ResolvedCentroid) : List ℝ :=
  l.foldr (fun r acc => vecAdd (scaleVector r.centroid (r.weight * UNLIKE_DAMPENING)) acc)
    (List.replicate 1024 0)

/-- Spec-side Rocchio formula: query embedding (or zero vector), minus
the negative-query embedding when given, plus the weighted positive
centroids, minus the dampened weighted negative centroids. -/
noncomputable def rocchioTarget (embed : String → List ℝ)
    (queryText negativeQuery : Option String)
    (positives negatives : List ResolvedCentroid) : List ℝ :=
  let base : List ℝ :=
    if truthyStr queryText then embed (queryText.getD "") else List.replicate 1024 0
  let base2 : List ℝ :=
    if truthyStr negativeQuery then vecSub base (embed (negativeQuery.getD "")) else base
  vecSub (vecAdd base2 (weightedCentroidSum positives)) (dampenedCentroidSum negatives)

/-! ## Centroid aggregation (`src/services/compute-centroids.ts`)

The relational join (messages having an embedding row in the message
collection for the scope) is modelled as the id-sorted list of rows the
SQL returns; cursor pagination over that sorted list (`m.id > $last
ORDER BY m.id LIMIT 100`) is page-peeling with `take`/`drop`.  The
vector store (`collection.get`) is a partial map from chroma id to
vector: absent ids are simply not returned, exactly as Chroma omits
unknown ids. -/

/-- `BGE_DIMENSIONS`: expected embedding dimensionality. -/
def BGE_DIMENSIONS : ℕ := 1024

/-- `BATCH_SIZE` of the centroid pagination. -/
def CENTROID_BATCH_SIZE : ℕ := 100

/-- One row of the messages-with-embeddings join for a scope:
message id, `LENGTH(content_text)` (none for SQL NULL), chroma id. -/
structure CentroidMsgRow where
  id : ℕ
  contentLen : Option ℕ
  chromaId : String
deriving DecidableEq

/-- The `COUNT(*)` query: messages of the scope having an embedding row,
with non-null content of length > 10. -/
def eligibleMessageCount (rows : List CentroidMsgRow) : ℕ :=
  (rows.filter fun r =>
    match r.contentLen with
    | some n => decide (10 < n)
    | none => false).length

/-- The accumulation loop of `computeSessionCentroid`: while fewer
vectors than `totalCount` have been summed, fetch the next page of rows,
get their vectors from the store, and add every vector of the expected
dimensionality into the running sum. -/
def centroidLoop (store : String → Option (List ℝ)) (totalCount : ℕ) :
    List CentroidMsgRow → List ℝ → ℕ → List ℝ × ℕ
  | rows, sum, processed =>
    if totalCount ≤ processed then (sum, processed)
    else
      match _h : rows with
      | [] => (sum, processed)
      | _ :: _ =>
        let page := rows.take CENTROID_BATCH_SIZE
        let valid := (page.filterMap fun r => store r.chromaId).filter
          fun e => e.length = BGE_DIMENSIONS
        centroidLoop store totalCount (rows.drop CENTROID_BATCH_SIZE)
          (valid.foldl vecAdd sum) (processed + valid.length)
termination_by rows _ _ => rows.length
decreasing_by
  subst_vars
  simp only [List.length_drop, List.length_cons, CENTROID_BATCH_SIZE]
  omega

/-- `computeSessionCentroid`: none when the eligible count is zero,
otherwise stream pages, sum the retrieved vectors, divide by the count
actually summed and normalize (none when nothing was summed). -/
noncomputable def computeSessionCentroid (store : String → Option (List ℝ))
    (rows : List CentroidMsgRow) : Option (List ℝ × ℕ) :=
  let totalCount := eligibleMessageCount rows
  if totalCount = 0 then none
  else
    let result := centroidLoop store totalCount rows (List.replicate BGE_DIMENSIONS 0) 0
    if result.2 = 0 then none
    else
      let mean := result.1.map fun s => s / (result.2 : ℝ)
      some (normalizeVector mean, result.2)

/-- `computeProjectCentroid`: the source duplicates the session
algorithm verbatim with project-scoped queries; over the already-joined
row list it is the same function. -/
noncomputable def computeProjectCentroid (store : String → Option (List ℝ))
    (rows : List CentroidMsgRow) : Option (List ℝ × ℕ) :=
  let totalCount := eligibleMessageCount rows
  if totalCount = 0 then none
  else
    let result := centroidLoop store totalCount rows (List.replicate BGE_DIMENSIONS 0) 0
    if result.2 = 0 then none
    else
      let mean := result.1.map fun s => s / (result.2 : ℝ)
      some (normalizeVector mean, result.2)

/-- Spec-side: the vectors the pagination loop actually retrieves from
the vector store (present in the store and of the expected dimension),
in retrieval order. -/
def retrievedVectors (store : String → Option (List ℝ)) (totalCount : ℕ) :
    List CentroidMsgRow → ℕ → List (List ℝ)
  | rows, processed =>
    if totalCount ≤ processed then []
    else
      match _h : rows with
      | [] => []
      | _ :: _ =>
        let page := rows.take CENTROID_BATCH_SIZE
        let valid := (page.filterMap fun r => store r.chromaId).filter
          fun e => e.length = BGE_DIMENSIONS
        valid ++ retrievedVectors store totalCount (rows.drop CENTROID_BATCH_SIZE)
          (processed + valid.length)
termination_by rows _ => rows.length
decreasing_by
  subst_vars
  simp only [List.length_drop, List.length_cons, CENTROID_BATCH_SIZE]
  omega

/-! ## Embedding client with NaN fallback (`src/embeddings/ollama.ts`)

Floating-point vector entries are modelled as either a finite rational
or a non-finite value (`NaN`/`Infinity`, which the source treats
identically via `isNaN(val) || !isFinite(val)`).  A thrown Ollama error
carries whether its message mentions `NaN` (the source branches on
`error.message?.includes("NaN")`).  The embedding endpoint, the
summarizer (`summarizeConversation`) and the rephraser (`rephraseText`)
are oracle parameters bundled in `OllamaEnv`. -/

/-- One component of an embedding vector as returned by the endpoint. -/
inductive FloatVal where
  | fin (q : ℚ)
  | nonfinite
deriving DecidableEq

/-- `isNaN(val) || !isFinite(val)` on a component. -/
def FloatVal.isNonFinite : FloatVal → Bool
  | .fin _ => false
  | .nonfinite => true

/-- `emb.some((val) => isNaN(val) || !isFinite(val))`. -/
def hasNaN (v : List FloatVal) : Bool := v.any FloatVal.isNonFinite

/-- A thrown error from the embedding stack; `mentionsNaN` models
`error.message?.includes("NaN")`. -/
structure OllamaError where
  mentionsNaN : Bool
deriving DecidableEq

/-- Oracles of the embedding client: the batch embed endpoint, the
summarizer and the rephraser. -/
structure OllamaEnv where
  embedBatch : List String → Sum OllamaError (List (List FloatVal))
  summarize : String → String
  rephrase : String → String

/-- JavaScript `String.prototype.trim`: strip leading and trailing
whitespace (modelled over the character list). -/
def jsTrim (s : String) : String :=
  (((s.toList.dropWhile Char.isWhitespace).reverse.dropWhile
    Char.isWhitespace).reverse).asString

/-- `sanitizeText`: drop null bytes, replace the remaining control
characters (C0 plus DEL..C1) with spaces, trim. -/
def sanitizeText (text : String) : String :=
  jsTrim (((text.toList.filter fun c => c ≠ Char.ofNat 0).map fun c =>
    if c.val ≤ 0x1F ∨ (0x7F ≤ c.val ∧ c.val ≤ 0x9F) then ' ' else c).asString)

/-- One individual embed attempt inside the fallback: call the endpoint
with a single input, take the first vector, and turn a detected
non-finite component into a thrown error whose message mentions NaN. -/
def singleEmbed (env : OllamaEnv) (text : String) : Sum OllamaError (List FloatVal) :=
  match env.embedBatch [text] with
  | .inl e => .inl e
  | .inr embs =>
    let e0 := embs.headD []
    if hasNaN e0 then .inl ⟨true⟩ else .inr e0

/-- The per-item fallback cascade of `generateEmbeddingsWithFallback`:
raw text, then summarized, then rephrased; a NaN failure at the last
stage yields `none` (null, un-embeddable), a non-NaN error rethrows
except at the rephrase stage, where any error yields `none`. -/
def itemFallback (env : OllamaEnv) (text : String) :
    Except OllamaError (Option (List FloatVal)) :=
  match singleEmbed env text with
  | .inr v => .ok (some v)
  | .inl e =>
    if e.mentionsNaN then
      match singleEmbed env (env.summarize text) with
      | .inr v => .ok (some v)
      | .inl e2 =>
        if e2.mentionsNaN then
          match singleEmbed env (env.rephrase text) with
          | .inr v => .ok (some v)
          | .inl _ => .ok none
        else .error e2
    else .error e

/-- `generateEmbeddingsWithFallback(texts, sanitizedTexts)`: re-embed
each sanitized text individually through the cascade; a rethrown error
aborts the remainder. -/
def generateEmbeddingsWithFallback (env : OllamaEnv)
    (originalTexts sanitizedTexts : List String) :
    Except OllamaError (List (Option (List FloatVal))) :=
  sanitizedTexts.mapM (itemFallback env)

/-- Errors `generateEmbeddings` can throw: the empty-after-sanitization
validation error, or a propagated Ollama error. -/
inductive GenError where
  | emptyText (idx : ℕ)
  | ollama (e : OllamaError)
deriving DecidableEq

/-- `generateEmbeddings(texts)`: sanitize, validate non-empty, call the
batch endpoint once; on a thrown error whose message mentions NaN fall
back to per-item retry, otherwise rethrow. -/
def generateEmbeddings (env : OllamaEnv) (texts : List String) :
    Except GenError (List (Option (List FloatVal))) :=
  let sanitizedTexts := texts.map sanitizeText
  match sanitizedTexts.findIdx? (fun s => s = "") with
  | some i => .error (.emptyText i)
  | none =>
    match env.embedBatch sanitizedTexts with
    | .inr embs => .ok (embs.map some)
    | .inl e =>
      if e.mentionsNaN then
        match generateEmbeddingsWithFallback env texts sanitizedTexts with
        | .ok res => .ok res
        | .error e2 => .error (.ollama e2)
      else .error (.ollama e)

/-- Spec-side per-item result of the cascade: the first attempt among
raw, summarized and rephrased text that returns a vector; `none` when
all three fail. -/
def specItemResult (env : OllamaEnv) (text : String) : Option (List FloatVal) :=
  match singleEmbed env text with
  | .inr v => some v
  | .inl _ =>
    match singleEmbed env (env.summarize text) with
    | .inr v => some v
    | .inl _ =>
      match singleEmbed env (env.rephrase text) with
      | .inr v => some v
      | .inl _ => none

/-! ## Noise classification (`src/embeddings/batch.ts`)

JavaScript regular expressions over the fixed `NOISE_PATTERNS` list are
translated test by test into decidable character-list predicates (all
patterns are anchored prefixes, `\s` is modelled by `Char.isWhitespace`,
`\d` by `Char.isDigit`; string lengths agree with JS `.length` on the
ASCII texts considered here). -/

/-- Anchored-prefix regex test: `^lit`. -/
def strStartsWith (s lit : String) : Bool := lit.toList.isPrefixOf s.toList

/-- Anchored prefix followed by one digit: `^lit\d`. -/
def startsWithThenDigit (s lit : String) : Bool :=
  lit.toList.isPrefixOf s.toList &&
    (((s.toList.drop lit.toList.length).head?.map Char.isDigit).getD false)

/-- `^\s*(CREATE TABLE|COPY \d|DROP TABLE|ALTER TABLE|INSERT \d)`. -/
def sqlDdlTest (s : String) : Bool :=
  let rest := (s.toList.dropWhile Char.isWhitespace).asString
  strStartsWith rest "CREATE TABLE" || startsWithThenDigit rest "COPY " ||
    strStartsWith rest "DROP TABLE" || strStartsWith rest "ALTER TABLE" ||
    startsWithThenDigit rest "INSERT "

/-- `^\s*\d+ rows? affected`. -/
def rowsAffectedTest (s : String) : Bool :=
  let rest := s.toList.dropWhile Char.isWhitespace
  let digits := rest.takeWhile Char.isDigit
  let after := (rest.dropWhile Char.isDigit).asString
  !digits.isEmpty &&
    (strStartsWith after " rows affected" || strStartsWith after " row affected")

/-- A member of `NOISE_PATTERNS`: the regex source text and its test. -/
structure NoisePattern where
  source : String
  test : String → Bool

/-- The fixed boilerplate pattern list of the source. -/
def NOISE_PATTERNS : List NoisePattern :=
  [⟨"^\\[Request interrupted", fun s => strStartsWith s "[Request interrupted"⟩,
   ⟨"^\\[THINKING\\]", fun s => strStartsWith s "[THINKING]"⟩,
   ⟨"^No results found", fun s => strStartsWith s "No results found"⟩,
   ⟨"^No files found", fun s => strStartsWith s "No files found"⟩,
   ⟨"^No matches found", fun s => strStartsWith s "No matches found"⟩,
   ⟨"^File created successfully", fun s => strStartsWith s "File created successfully"⟩,
   ⟨"^Updated task #", fun s => strStartsWith s "Updated task #"⟩,
   ⟨"^MCP (error|tool call)",
     fun s => strStartsWith s "MCP error" || strStartsWith s "MCP tool call"⟩,
   ⟨"^To github\\.com", fun s => strStartsWith s "To github.com"⟩,
   ⟨"^Exit code \\d", fun s => startsWithThenDigit s "Exit code "⟩,
   ⟨"^\\s*(CREATE TABLE|COPY \\d|DROP TABLE|ALTER TABLE|INSERT \\d)", sqlDdlTest⟩,
   ⟨"^\\s*\\d+ rows? affected", rowsAffectedTest⟩,
   ⟨"^\\\x7b\"ok\":false", fun s => strStartsWith s "\x7b\"ok\":false"⟩]

/-- `classifyNoise(text)`: a too-short reason below 50 characters,
otherwise the first matching boilerplate pattern, otherwise none. -/
def classifyNoise (text : String) : Option String :=
  if text.length < 50 then some ("too-short:" ++ toString text.length)
  else
    match NOISE_PATTERNS.find? (fun p => p.test text) with
    | some p => some ("pattern:" ++ p.source)
    | none => none

/-! ## Failure-record upserts and healing (`src/embeddings/batch.ts`)

The `embeddings` table is a list of rows with the unique key
`(message_id, chroma_collection)`; `INSERT ... ON CONFLICT DO UPDATE`
becomes append-or-map-update.  Timestamps (`NOW()`, `updated_at`) are
integers in milliseconds. -/

/-- One row of the `embeddings` table. -/
structure EmbRec where
  message_id : ℕ
  chroma_collection : String
  chroma_id : String
  embedding_model : String
  dimensions : ℕ
  content_chars_at_embed : ℕ
  failure_reason : Option String
  failure_detail : Option String
  retry_count : ℕ
  updated_at : ℤ
deriving DecidableEq

/-- Row lookup by the unique `(message_id, chroma_collection)` key. -/
def lookupRec (embs : List EmbRec) (mid : ℕ) (coll : String) : Option EmbRec :=
  embs.find? fun r => decide (r.message_id = mid ∧ r.chroma_collection = coll)

/-- `markUnembeddable(messageId, reason, detail)`: upsert the sentinel
`UNEMBEDDABLE` row; a fresh row starts with `retry_count` 1 for `nan`
and 0 otherwise, an update increments `retry_count` only for `nan`,
keeps the old detail when no new one is given (`COALESCE`), and always
refreshes `updated_at` to now. -/
def markUnembeddable (embs : List EmbRec) (messageId : ℕ) (reason : String)
    (detail : Option String) (now : ℤ) : List EmbRec :=
  match lookupRec embs messageId "UNEMBEDDABLE" with
  | none =>
    embs ++ [{ message_id := messageId
               chroma_collection := "UNEMBEDDABLE"
               chroma_id := "unembeddable-" ++ toString messageId
               embedding_model := "none"
               dimensions := 0
               content_chars_at_embed := 0
               failure_reason := some reason
               failure_detail := detail
               retry_count := if reason = "nan" then 1 else 0
               updated_at := now }]
  | some _ =>
    embs.map fun r =>
      if r.message_id = messageId ∧ r.chroma_collection = "UNEMBEDDABLE" then
        { r with
          failure_reason := some reason
          failure_detail := (match detail with
            | some d => some d
            | none => r.failure_detail)
          retry_count := if reason = "nan" then r.retry_count + 1 else r.retry_count
          updated_at := now }
      else r

/-- The record `markUnembeddable` leaves under the key it touched. -/
def markedRec (previous : Option EmbRec) (messageId : ℕ) (reason : String)
    (detail : Option String) (now : ℤ) : EmbRec :=
  match previous with
  | none =>
    { message_id := messageId
      chroma_collection := "UNEMBEDDABLE"
      chroma_id := "unembeddable-" ++ toString messageId
      embedding_model := "none"
      dimensions := 0
      content_chars_at_embed := 0
      failure_reason := some reason
      failure_detail := detail
      retry_count := if reason = "nan" then 1 else 0
      updated_at := now }
  | some r =>
    { r with
      failure_reason := some reason
      failure_detail := (match detail with
        | some d => some d
        | none => r.failure_detail)
      retry_count := if reason = "nan" then r.retry_count + 1 else r.retry_count
      updated_at := now }

/-! ## Candidate selection and healing eligibility
(`src/embeddings/batch.ts`, `src/config.ts`) -/

/-- Milliseconds per day (`make_interval(days => n)` against
millisecond timestamps). -/
def msPerDay : ℤ := 86400000

/-- `config.healing.retryLimit` default (environment unset). -/
def healingRetryLimit : ℕ := 3

/-- `config.healing.cooldownDays` default (environment unset). -/
def healingCooldownDays : ℕ := 7

/-- One row of the candidate join (message with its project path and
source name). -/
structure EmbMsg where
  id : ℕ
  session_id : ℕ
  content_text : Option String
  role : String
  timestamp : ℤ
  project_path : String
  source_name : String
  model : Option String
deriving DecidableEq

/-- The healing re-offer condition of the skip join:
`failure_reason = 'nan' AND retry_count < $limit AND
updated_at < NOW() - make_interval(days => $cooldown)`. -/
def healingEligible (r : EmbRec) (now : ℤ) (retryLimit cooldownDays : ℕ) : Bool :=
  decide (r.failure_reason = some "nan") && decide (r.retry_count < retryLimit) &&
    decide (r.updated_at < now - (cooldownDays : ℤ) * msPerDay)

/-- The WHERE clause of `getMessagesToEmbed`: non-null content longer
than 10, role not tool, no successful embedding row, and no blocking
(= ineligible) `UNEMBEDDABLE` row. -/
def isCandidate (embs : List EmbRec) (now : ℤ) (m : EmbMsg) : Bool :=
  (match m.content_text with
   | some c => decide (10 < c.length)
   | none => false) &&
  decide (m.role ≠ "tool") &&
  decide (¬ ∃ r ∈ embs, r.message_id = m.id ∧ r.chroma_collection = "convo-messages") &&
  decide (∀ r ∈ embs, r.message_id = m.id ∧ r.chroma_collection = "UNEMBEDDABLE" →
    healingEligible r now healingRetryLimit healingCooldownDays = true)

/-! ## The embedding production loop (`src/embeddings/batch.ts`)

One iteration of the `while (hasMore)` loop of
`generatePendingEmbeddings` over a relational state of message rows
(id-sorted, as `ORDER BY m.id` returns them) and embedding rows.  The
vector-store upsert has no effect on candidate selection (which reads
only Postgres) and is not represented in the state. -/

/-- `stats` of the production loop. -/
structure BatchStats where
  processed : ℕ
  skipped : ℕ
  errors : ℕ
deriving DecidableEq

/-- Relational state read and written by the loop. -/
structure EmbDB where
  messages : List EmbMsg
  embeddings : List EmbRec
deriving DecidableEq

/-- `config.embeddings.batchSize` default. -/
def embBatchSize : ℕ := 100

/-- `MAX_EMBED_CHARS`. -/
def MAX_EMBED_CHARS : ℕ := 8000

/-- `Math.ceil(limit * 1.3)` over naturals. -/
def overfetchOf (limit : ℕ) : ℕ := (13 * limit + 9) / 10

/-- `LENGTH(content_text)` accessor (candidates always have content). -/
def msgContent (m : EmbMsg) : String := m.content_text.getD ""

/-- The raw candidate fetch: WHERE-filtered rows in id order, LIMIT
overfetch. -/
def candidateRows (db : EmbDB) (now : ℤ) (limit : ℕ) : List EmbMsg :=
  (db.messages.filter (isCandidate db.embeddings now)).take (overfetchOf limit)

/-- `getMessagesToEmbed(limit)`: fetch `ceil(limit * 1.3)` raw
candidates, split off noise (marking each noise row), return the kept
rows capped at `limit`, the exhausted flag (raw fetch returned fewer
rows than requested), and the updated state. -/
def getMessagesToEmbed (db : EmbDB) (now : ℤ) (limit : ℕ) :
    List EmbMsg × Bool × EmbDB :=
  let rows := candidateRows db now limit
  let kept := rows.filter fun m => classifyNoise (msgContent m) = none
  let skipped := rows.filter fun m => (classifyNoise (msgContent m)).isSome
  let embs := skipped.foldl (fun acc m =>
    markUnembeddable acc m.id "noise" (classifyNoise (msgContent m)) now) db.embeddings
  (kept.take limit, decide (rows.length < overfetchOf limit),
    { db with embeddings := embs })

/-- `texts` preparation: long messages are summarized before embedding. -/
def prepareTexts (env : OllamaEnv) (msgs : List EmbMsg) : List String :=
  msgs.map fun m =>
    let c := msgContent m
    if MAX_EMBED_CHARS < c.length then env.summarize c else c

/-- The Postgres upsert recording a successful message embedding. -/
def upsertMessageEmbedding (embs : List EmbRec) (m : EmbMsg) (now : ℤ) : List EmbRec :=
  match lookupRec embs m.id "convo-messages" with
  | none =>
    embs ++ [{ message_id := m.id
               chroma_collection := "convo-messages"
               chroma_id := "msg-" ++ toString m.id
               embedding_model := "bge-m3"
               dimensions := 1024
               content_chars_at_embed := (msgContent m).length
               failure_reason := none
               failure_detail := none
               retry_count := 0
               updated_at := now }]
  | some _ =>
    embs.map fun r =>
      if r.message_id = m.id ∧ r.chroma_collection = "convo-messages" then
        { r with
          content_chars_at_embed := (msgContent m).length
          embedding_model := "bge-m3" }
      else r

/-- The body of the `try` block: embed the prepared texts, mark each
null result as a nan failure (counting it as skipped), record each
successful result (counting it as processed); a thrown error aborts
only this batch and bumps the error counter. -/
def processBatch (env : OllamaEnv) (now : ℤ) (db : EmbDB) (stats : BatchStats)
    (msgs : List EmbMsg) : EmbDB × BatchStats :=
  match generateEmbeddings env (prepareTexts env msgs) with
  | .error _ => (db, { stats with errors := stats.errors + 1 })
  | .ok embeddings =>
    let pairs := msgs.zip embeddings
    let failed := pairs.filter fun p => p.2 = none
    let successful := pairs.filter fun p => p.2.isSome
    let embs1 := failed.foldl (fun acc p =>
      markUnembeddable acc p.1.id "nan" (some "all fallbacks exhausted") now) db.embeddings
    let embs2 := successful.foldl (fun acc p => upsertMessageEmbedding acc p.1 now) embs1
    ({ db with embeddings := embs2 },
     { stats with
       processed := stats.processed + successful.length
       skipped := stats.skipped + failed.length })

/-- Outcome of one iteration of the production loop: `done` is the
`break`, `next` continues with the next fetch. -/
inductive LoopOutcome where
  | done (db : EmbDB) (stats : BatchStats)
  | next (db : EmbDB) (stats : BatchStats)
deriving DecidableEq

/-- One iteration of the `while (hasMore)` loop: fetch candidates;
break only when nothing survived filtering and the raw fetch was
exhausted; continue on an all-noise page; otherwise process the batch
(exceptions abort only the batch) and continue. -/
def loopIteration (env : OllamaEnv) (now : ℤ) (db : EmbDB) (stats : BatchStats) :
    LoopOutcome :=
  let fetched := getMessagesToEmbed db now embBatchSize
  let messagesToEmbed := fetched.1
  let exhausted := fetched.2.1
  let db1 := fetched.2.2
  if messagesToEmbed.isEmpty then
    (if exhausted then .done db1 stats else .next db1 stats)
  else
    let result := processBatch env now db1 stats messagesToEmbed
    .next result.1 result.2

/-- A concrete embedding oracle for the C3 witness: every single-text
call succeeds only for the text `"good"`; every other call (including
the two-text batch) throws an error mentioning NaN.  Summarize and
rephrase leave the text unchanged, so the text `"bad"` exhausts all
fallbacks. -/
def nanFallbackEnv : OllamaEnv where
  embedBatch := fun l =>
    if l = ["good"] then .inr [[FloatVal.fin 1]] else .inl ⟨true⟩
  summarize := fun s => s
  rephrase := fun s => s

/-! ## Hybrid search (`src/mcp/search.ts`)

The relational store is a `SearchDB` of session, message and project
rows; the vector index (`querySimilar`), the embedding endpoint, the
full-text match/rank primitives (`plainto_tsquery` matching and
`ts_rank`) and date parsing (`new Date(string)`) are oracles in
`SearchEnv`.  JavaScript number parsing (`parseInt`, `parseFloat`) is
modelled on the decimal forms the ids and weights take. -/

/-- `mode` parameter. -/
inductive SMode where
  | semantic
  | text
  | hybrid
deriving DecidableEq

/-- `SearchParams` (absent optional parameters are `none`;
`projectOnly` is used only through its truthiness). -/
structure SearchParams where
  query : Option String := none
  negativeQuery : Option String := none
  excludeTerms : Option String := none
  cwd : Option String := none
  mode : Option SMode := none
  limit : Option ℕ := none
  source : Option String := none
  since : Option String := none
  projectOnly : Bool := false
  likeSession : Option (List String) := none
  unlikeSession : Option (List String) := none
  likeProject : Option (List String) := none
  unlikeProject : Option (List String) := none

/-- A row of the sessions join (`SESSION_QUERY` columns plus
`deleted_at` and the centroid column used by `resolveCentroids`). -/
structure SessionRow where
  id : ℕ
  title : Option String
  summary : Option String
  project_name : String
  project_path : String
  source_name : String
  started_at : ℤ
  message_count : ℕ
  project_id : ℕ
  deleted_at : Option ℤ
  centroid_vector : Option (List ℝ)

/-- A message row as the lexical query reads it. -/
structure MsgRow where
  id : ℕ
  session_id : ℕ
  content_text : Option String

/-- A project row (`findProjectsByPath`, `resolveCentroids`). -/
structure ProjectRow where
  id : ℕ
  path : Option String
  name : String
  source_name : String
  centroid_vector : Option (List ℝ)

/-- The relational state search reads. -/
structure SearchDB where
  sessions : List SessionRow
  messages : List MsgRow
  projects : List ProjectRow

/-- A Chroma `query` response (`ids` and optional `distances`, both
nested one level per query vector). -/
structure ChromaHits where
  ids : List (List String)
  distances : Option (List (List ℚ))

/-- The oracles of search. -/
structure SearchEnv where
  embed : String → List ℝ
  querySimilar : String → List ℝ → ℕ → ChromaHits
  tsMatch : String → String → Bool
  tsRank : String → String → ℚ
  dateParse : String → ℤ
  nowMs : ℤ

/-- One returned search result. -/
structure SearchResult where
  session_id : ℕ
  project_name : String
  project_path : String
  source : String
  title : String
  summary : Option String
  timestamp : ℤ
  score : ℚ
  message_count : ℕ
deriving DecidableEq

/-- Digits-prefix `parseInt` (returns none where JS yields NaN on the
id strings at hand). -/
def jsParseInt (s : String) : Option ℕ :=
  let ds := s.toList.takeWhile Char.isDigit
  if ds.isEmpty then none
  else some (ds.foldl (fun n c => 10 * n + (c.toNat - 48)) 0)

/-- JavaScript `parseFloat` on the decimal forms weights take
(`"2"`, `"2.0"`, `"-1.5"`, trailing garbage ignored); other forms
(NaN results) are none. -/
def jsParseFloat (s : String) : Option ℚ :=
  let cs := s.toList
  let sign : ℚ := if cs.head? = some '-' then -1 else 1
  let cs := if cs.head? = some '-' then cs.tail else cs
  let intds := cs.takeWhile Char.isDigit
  let rest := cs.dropWhile Char.isDigit
  if intds.isEmpty then none
  else
    let intval : ℚ := ((intds.foldl (fun n c => 10 * n + (c.toNat - 48)) 0 : ℕ) : ℚ)
    match rest with
    | '.' :: fr =>
      let frds := fr.takeWhile Char.isDigit
      let frval : ℚ := ((frds.foldl (fun n c => 10 * n + (c.toNat - 48)) 0 : ℕ) : ℚ)
      some (sign * (intval + frval / (10 : ℚ) ^ frds.length))
    | _ => some (sign * intval)

/-- If `pat` heads the list, the remainder after it. -/
def stripLeading (pat s : List Char) : Option (List Char) :=
  match pat, s with
  | [], rest => some rest
  | _ :: _, [] => none
  | p :: ps, c :: cs => if p = c then stripLeading ps cs else none

/-- Scan for the first occurrence of `pat` and splice it out. -/
def replaceFirstAux (pat : List Char) : List Char → List Char
  | [] => []
  | c :: cs =>
    match stripLeading pat (c :: cs) with
    | some rest => rest
    | none => c :: replaceFirstAux pat cs

/-- JavaScript `String.prototype.replace` with a string pattern and the
empty replacement: delete the first occurrence only. -/
def replaceFirst (s pat : String) : String :=
  (replaceFirstAux pat.toList s.toList).asString

/-- A parsed `"identifier"` / `"identifier:weight"` entry. -/
structure WeightedId where
  id : String
  weight : ℚ

/-- Index of the last colon of the character list, if any. -/
def lastIndexOfColon (cs : List Char) : Option ℕ :=
  ((cs.enum.filter fun p => p.2 = ':').map fun p => p.1).getLast?

/-- `parseWeightedIds`: split each entry at its last colon when the
suffix parses as a number (weight 1.0 otherwise), dropping empty ids. -/
def parseWeightedIds (params : List String) : List WeightedId :=
  (params.map fun item =>
    let trimmed := (jsTrim item).toList
    match lastIndexOfColon trimmed with
    | some colonIndex =>
      if 0 < colonIndex then
        match jsParseFloat (trimmed.drop (colonIndex + 1)).asString with
        | some weight => ⟨(trimmed.take colonIndex).asString, weight⟩
        | none => ⟨trimmed.asString, 1⟩
      else ⟨trimmed.asString, 1⟩
    | none => ⟨trimmed.asString, 1⟩).filter fun item => 0 < item.id.length

/-- `resolveCentroids(table, weightedIds)`: numeric ids whose row has a
stored centroid; others silently dropped. -/
def resolveCentroids (db : SearchDB) (table : String) (weightedIds : List WeightedId) :
    List ResolvedCentroid :=
  weightedIds.filterMap fun wid =>
    match jsParseInt wid.id with
    | none => none
    | some numId =>
      let row? : Option (List ℝ) :=
        if table = "sessions" then
          (db.sessions.find? fun s => decide (s.id = numId)).bind fun s => s.centroid_vector
        else
          (db.projects.find? fun p => decide (p.id = numId)).bind fun p => p.centroid_vector
      match row? with
      | some c => some ⟨wid.id, (wid.weight : ℝ), c⟩
      | none => none

/-- `findProjectsByPath(cwd)`: projects whose path is a prefix of cwd
or vice versa, longest path first. -/
def findProjectsByPath (db : SearchDB) (cwd : String) : List ProjectRow :=
  (db.projects.filter fun p =>
    match p.path with
    | some path => strStartsWith cwd path || strStartsWith path cwd
    | none => false).mergeSort
    fun a b => decide ((b.path.getD "").length ≤ (a.path.getD "").length)

/-- `getSessionById` (excludes soft-deleted sessions). -/
def getSessionById (db : SearchDB) (sid : ℕ) : Option SessionRow :=
  db.sessions.find? fun s => decide (s.id = sid ∧ s.deleted_at = none)

/-- `getSessionByMessageId` (the message's session, not deleted). -/
def getSessionByMessageId (db : SearchDB) (mid : ℕ) : Option SessionRow :=
  match db.messages.find? fun m => decide (m.id = mid) with
  | none => none
  | some m => getSessionById db m.session_id

/-- `parseSinceDate`: relative `<n>[dhwm]` against now, otherwise the
date-parse oracle; falsy input gives null. -/
def parseSinceDate (env : SearchEnv) (since : Option String) : Option ℤ :=
  match since with
  | none => none
  | some s =>
    if s = "" then none
    else
      let digits := s.toList.takeWhile Char.isDigit
      let rest := s.toList.dropWhile Char.isDigit
      if !digits.isEmpty ∧ (rest = ['d'] ∨ rest = ['h'] ∨ rest = ['w'] ∨ rest = ['m']) then
        let num : ℤ := (digits.foldl (fun n c => 10 * n + (c.toNat - 48)) 0 : ℕ)
        let ms : ℤ :=
          if rest = ['d'] then 86400000
          else if rest = ['h'] then 3600000
          else if rest = ['w'] then 604800000
          else 2592000000
        some (env.nowMs - num * ms)
      else some (env.dateParse s)

/-- `passesFilters`: the source, time-since and project-only checks the
two semantic passes run before adding a result. -/
def passesFilters (session : SessionRow) (source : Option String) (projectOnly : Bool)
    (sinceDate : Option ℤ) (projectIds : List ℕ) : Bool :=
  if truthyStr source ∧ session.source_name ≠ source.getD "" then false
  else if (match sinceDate with
    | some d => decide (session.started_at < d)
    | none => false) then false
  else if projectOnly ∧ ¬ session.project_id ∈ projectIds then false
  else true

/-- `toResult`: project results of the semantic passes, with the
current-project boost of 0.5. -/
def toResult (session : SessionRow) (score : ℚ) (projectIds : List ℕ) : SearchResult :=
  { session_id := session.id
    project_name := session.project_name
    project_path := session.project_path
    source := session.source_name
    title := session.title.getD "Untitled"
    summary := session.summary
    timestamp := session.started_at
    score := score + (if session.project_id ∈ projectIds then (1 : ℚ)/2 else 0)
    message_count := session.message_count }

/-- `addResult`: first-strategy-wins dedup by session id. -/
def addResult (st : List SearchResult × List ℕ) (r : SearchResult) :
    List SearchResult × List ℕ :=
  if r.session_id ∈ st.2 then st else (st.1 ++ [r], st.2 ++ [r.session_id])

/-- `1 - (hits.distances?.[0]?.[i] ?? 1)`. -/
def scoreAt (hits : ChromaHits) (i : ℕ) : ℚ :=
  1 - ((hits.distances.bind fun d => d.head?).bind fun d0 => d0.get? i).getD 1

/-- The session-level semantic pass: parse each hit id, look the
session up, apply the filters, and build the results to add. -/
def sessionPassItems (db : SearchDB) (params : SearchParams) (sinceDate : Option ℤ)
    (projectIds : List ℕ) (hits : ChromaHits) : List SearchResult :=
  match hits.ids with
  | [] => []
  | ids0 :: _ =>
    ids0.enum.filterMap fun p =>
      match jsParseInt (replaceFirst p.2 "session-") with
      | none => none
      | some sid =>
        match getSessionById db sid with
        | none => none
        | some session =>
          if passesFilters session params.source params.projectOnly sinceDate projectIds
          then some (toResult session (scoreAt hits p.1) projectIds)
          else none

/-- The scan phase of the message-level pass: best score per session
over hits whose session is neither already seen nor filtered out
(`!existing || score > existing`, with JS falsiness of a zero score). -/
def bestBySessionStep (db : SearchDB) (params : SearchParams) (sinceDate : Option ℤ)
    (projectIds : List ℕ) (seen : List ℕ) (hits : ChromaHits)
    (best : List (ℕ × ℚ)) (p : ℕ × String) : List (ℕ × ℚ) :=
  match jsParseInt (replaceFirst p.2 "msg-") with
  | none => best
  | some mid =>
    match getSessionByMessageId db mid with
    | none => best
    | some session =>
      if session.id ∈ seen then best
      else if ¬ passesFilters session params.source params.projectOnly sinceDate
          projectIds then best
      else
        let score := scoreAt hits p.1
        match best.find? fun q => decide (q.1 = session.id) with
        | none => best ++ [(session.id, score)]
        | some existing =>
          if existing.2 = 0 ∨ score > existing.2 then
            best.map fun x => if x.1 = session.id then (session.id, score) else x
          else best

def bestBySessionMap (db : SearchDB) (params : SearchParams) (sinceDate : Option ℤ)
    (projectIds : List ℕ) (seen : List ℕ) (hits : ChromaHits) : List (ℕ × ℚ) :=
  match hits.ids with
  | [] => []
  | ids0 :: _ =>
    ids0.enum.foldl (bestBySessionStep db params sinceDate projectIds seen hits) []

/-- The drain phase of the message-level pass. -/
def messagePassItems (db : SearchDB) (projectIds : List ℕ) (best : List (ℕ × ℚ)) :
    List SearchResult :=
  best.filterMap fun p =>
    match getSessionById db p.1 with
    | none => none
    | some session => some (toResult session p.2 projectIds)

/-- The WHERE clause of the lexical CTE for one message row: text
match, not deleted, source (`$2 IS NULL OR name = $2`), since, the
project condition (pushed only when projectOnly and some project
matched cwd) and the hard term exclusion (pushed only when
excludeTerms is truthy).  Returns the joined session and content. -/
def ftsRowCondition (env : SearchEnv) (db : SearchDB) (params : SearchParams)
    (sinceDate : Option ℤ) (projectIds : List ℕ) (m : MsgRow) :
    Option (SessionRow × String) :=
  match m.content_text with
  | none => none
  | some content =>
    match db.sessions.find? fun s => decide (s.id = m.session_id) with
    | none => none
    | some s =>
      if env.tsMatch content (params.query.getD "") &&
          decide (s.deleted_at = none) &&
          (match params.source with
            | none => true
            | some src => decide (s.source_name = src)) &&
          (match sinceDate with
            | none => true
            | some d => decide (d ≤ s.started_at)) &&
          (!(params.projectOnly && decide (projectIds ≠ [])) ||
            decide (s.project_id ∈ projectIds)) &&
          (!(truthyStr params.excludeTerms) ||
            !(env.tsMatch content (params.excludeTerms.getD "")))
      then some (s, content) else none

/-- The rows of the lexical CTE: `(session_id, rank, content)`. -/
def lexicalRows (env : SearchEnv) (db : SearchDB) (params : SearchParams)
    (sinceDate : Option ℤ) (projectIds : List ℕ) : List (ℕ × ℚ × String) :=
  db.messages.filterMap fun m =>
    (ftsRowCondition env db params sinceDate projectIds m).map fun pr =>
      (m.session_id, env.tsRank pr.2 (params.query.getD ""), pr.2)

/-- `DISTINCT ON (session_id) ... ORDER BY session_id, rank DESC`:
the best-ranked row per session. -/
def bestRankedPerSession (rows : List (ℕ × ℚ × String)) : List (ℕ × ℚ × String) :=
  rows.foldl (fun acc row =>
    match acc.find? fun q => decide (q.1 = row.1) with
    | none => acc ++ [row]
    | some q =>
      if row.2.1 > q.2.1 then
        acc.map fun x => if x.1 = row.1 then row else x
      else acc) []

/-- The lexical pass: best row per session, ranked descending, limited
to `limit * 2`, joined back to sessions, with the project boost. -/
def lexicalPassItems (env : SearchEnv) (db : SearchDB) (params : SearchParams)
    (sinceDate : Option ℤ) (projectIds : List ℕ) (limit : ℕ) : List SearchResult :=
  let rows := lexicalRows env db params sinceDate projectIds
  let best := bestRankedPerSession rows
  let sorted := best.mergeSort fun a b => decide (b.2.1 ≤ a.2.1)
  (sorted.take (limit * 2)).filterMap fun row =>
    match db.sessions.find? fun s => decide (s.id = row.1) with
    | none => none
    | some s =>
      some { session_id := row.1
             project_name := s.project_name
             project_path := s.project_path
             source := s.source_name
             title := s.title.getD "Untitled"
             summary := s.summary
             timestamp := s.started_at
             score := row.2.1 + (if s.project_id ∈ projectIds then (1 : ℚ)/2 else 0)
             message_count := s.message_count }

/-- The project ids matched from the caller's working directory. -/
def searchProjectIds (db : SearchDB) (params : SearchParams) : List ℕ :=
  match params.cwd with
  | some cwd => (findProjectsByPath db cwd).map fun p => p.id
  | none => []

/-- The composed query vector of this search call. -/
noncomputable def searchCompose (env : SearchEnv) (db : SearchDB) (params : SearchParams) :
    Except String (List ℝ) :=
  composeQueryVector env.embed params.query params.negativeQuery
    (resolveCentroids db "sessions"
      (match params.likeSession with | some l => parseWeightedIds l | none => []))
    (resolveCentroids db "sessions"
      (match params.unlikeSession with | some l => parseWeightedIds l | none => []))
    (resolveCentroids db "projects"
      (match params.likeProject with | some l => parseWeightedIds l | none => []))
    (resolveCentroids db "projects"
      (match params.unlikeProject with | some l => parseWeightedIds l | none => []))

/-- State after the session-level semantic pass (the merged results so
far and the seen session ids); a composition error skips the semantic
passes entirely (the `try`/`catch`). -/
noncomputable def sessionPassState (env : SearchEnv) (db : SearchDB) (params : SearchParams) :
    List SearchResult × List ℕ :=
  let limit := params.limit.getD 20
  let mode := params.mode.getD .hybrid
  if mode = .semantic ∨ mode = .hybrid then
    match searchCompose env db params with
    | .error _ => ([], [])
    | .ok embedding =>
      (sessionPassItems db params (parseSinceDate env params.since)
        (searchProjectIds db params)
        (env.querySimilar "convo-sessions" embedding (limit * 2))).foldl addResult ([], [])
  else ([], [])

/-- State after the message-level semantic pass. -/
noncomputable def messagePassState (env : SearchEnv) (db : SearchDB) (params : SearchParams) :
    List SearchResult × List ℕ :=
  let limit := params.limit.getD 20
  let mode := params.mode.getD .hybrid
  let st1 := sessionPassState env db params
  if mode = .semantic ∨ mode = .hybrid then
    match searchCompose env db params with
    | .error _ => st1
    | .ok embedding =>
      let hits := env.querySimilar "convo-messages" embedding (limit * 3)
      (messagePassItems db (searchProjectIds db params)
        (bestBySessionMap db params (parseSinceDate env params.since)
          (searchProjectIds db params) st1.2 hits)).foldl addResult st1
  else st1

/-- The fully merged (pre-sort) result list of one search call. -/
noncomputable def searchMerged (env : SearchEnv) (db : SearchDB) (params : SearchParams) :
    List SearchResult :=
  let limit := params.limit.getD 20
  let mode := params.mode.getD .hybrid
  let st2 := messagePassState env db params
  if (mode = .text ∨ mode = .hybrid) ∧ truthyStr params.query then
    ((lexicalPassItems env db params (parseSinceDate env params.since)
      (searchProjectIds db params) limit).foldl addResult st2).1
  else st2.1

/-- `search(params)`: throw unless a query or an exemplar parameter is
given; otherwise merge the passes, sort by score descending and
truncate to the limit. -/
noncomputable def search (env : SearchEnv) (db : SearchDB) (params : SearchParams) :
    Except String (List SearchResult) :=
  if ¬ truthyStr params.query ∧ params.likeSession = none ∧ params.likeProject = none ∧
      params.unlikeSession = none ∧ params.unlikeProject = none then
    .error "Must provide either query or centroid parameters (likeSession, likeProject, etc.)"
  else
    .ok (((searchMerged env db params).mergeSort
      fun a b => decide (b.score ≤ a.score)).take (params.limit.getD 20))

/-- A search environment whose full-text oracle reports that the text
"the secret plan" matches the term "secret", and whose vector index
always returns session 1. -/
def c7SemanticEnv : SearchEnv where
  embed := fun _ => List.replicate 1024 0
  querySimilar := fun _ _ _ => ⟨[["session-1"]], some [[0]]⟩
  tsMatch := fun content terms => decide (content = "the secret plan" ∧ terms = "secret")
  tsRank := fun _ _ => 1
  dateParse := fun _ => 0
  nowMs := 0

/-- A store with one session whose only message is "the secret plan". -/
def c7SemanticDb : SearchDB where
  sessions := [⟨1, some "T", none, "proj", "/p", "claude_code", 0, 5, 77, none, none⟩]
  messages := [⟨10, 1, some "the secret plan"⟩]
  projects := []

/-- A semantic-mode search excluding the term "secret". -/
def c7SemanticParams : SearchParams :=
  { query := some "q", excludeTerms := some "secret", mode := some SMode.semantic }

/-- An environment where every text matches the query lexically. -/
def c7LexEnv : SearchEnv where
  embed := fun _ => []
  querySimilar := fun _ _ _ => ⟨[], none⟩
  tsMatch := fun _ _ => true
  tsRank := fun _ _ => 1
  dateParse := fun _ => 0
  nowMs := 0

/-- A store with one session in project 99 and one matching message. -/
def c7LexDb : SearchDB where
  sessions := [⟨2, some "T2", none, "proj2", "/q", "claude_code", 0, 3, 99, none, none⟩]
  messages := [⟨20, 2, some "hello there world"⟩]
  projects := []

/-- A text-mode, projectOnly search whose cwd matched no project. -/
def c7LexParams : SearchParams :=
  { query := some "q", mode := some SMode.text, projectOnly := true }

/-- An oracle environment returning nothing, for exercising the throw
path of search. -/
def searchEmptyEnv : SearchEnv where
  embed := fun _ => []
  querySimilar := fun _ _ _ => ⟨[], none⟩
  tsMatch := fun _ _ => false
  tsRank := fun _ _ => 0
  dateParse := fun _ => 0
  nowMs := 0

/-- An empty relational store. -/
def searchEmptyDb : SearchDB where
  sessions := []
  messages := []
  projects := []

/-! ## Theorems -/

theorem vecAdd_length (a b : List ℝ) : (vecAdd a b).length = min a.length b.length := by
  simp [vecAdd]

theorem vecSub_length (a b : List ℝ) : (vecSub a b).length = min a.length b.length := by
  simp [vecSub]

theorem scaleVector_length (v : List ℝ) (c : ℝ) : (scaleVector v c).length = v.length := by
  simp [scaleVector]

theorem vecAdd_zero_right {n : ℕ} {v : List ℝ} (h : v.length = n) :
    vecAdd v (List.replicate n 0) = v := by
  apply List.ext_getElem
  · simp [vecAdd, h]
  · intro i h₁ h₂
    simp [vecAdd, List.getElem_zipWith]

theorem vecAdd_zero_left {n : ℕ} {v : List ℝ} (h : v.length = n) :
    vecAdd (List.replicate n 0) v = v := by
  apply List.ext_getElem
  · simp [vecAdd, h]
  · intro i h₁ h₂
    simp [vecAdd, List.getElem_zipWith]

theorem vecAdd_assoc (a b c : List ℝ) : vecAdd (vecAdd a b) c = vecAdd a (vecAdd b c) := by
  apply List.ext_getElem
  · simp only [vecAdd, List.length_zipWith]
    omega
  · intro i h₁ h₂
    simp only [vecAdd, List.getElem_zipWith]
    ring

theorem vecSub_vecSub (v a b : List ℝ) : vecSub (vecSub v a) b = vecSub v (vecAdd a b) := by
  apply List.ext_getElem
  · simp only [vecAdd, vecSub, List.length_zipWith]
    omega
  · intro i h₁ h₂
    simp only [vecAdd, vecSub, List.getElem_zipWith]
    ring

theorem vecAdd_vecSub_swap (v a b : List ℝ) : vecAdd (vecSub v a) b = vecSub (vecAdd v b) a := by
  apply List.ext_getElem
  · simp only [vecAdd, vecSub, List.length_zipWith]
    omega
  · intro i h₁ h₂
    simp only [vecAdd, vecSub, List.getElem_zipWith]
    ring

theorem weightedCentroidSum_cons (r : ResolvedCentroid) (t : List ResolvedCentroid) :
    weightedCentroidSum (r :: t) =
      vecAdd (scaleVector r.centroid r.weight) (weightedCentroidSum t) := rfl

theorem dampenedCentroidSum_cons (r : ResolvedCentroid) (t : List ResolvedCentroid) :
    dampenedCentroidSum (r :: t) =
      vecAdd (scaleVector r.centroid (r.weight * UNLIKE_DAMPENING)) (dampenedCentroidSum t) := rfl

theorem weightedCentroidSum_length {l : List ResolvedCentroid}
    (h : ∀ r ∈ l, r.centroid.length = 1024) :
    (weightedCentroidSum l).length = 1024 := by
  induction l with
  | nil => simp [weightedCentroidSum]
  | cons r t ih =>
    have hr : r.centroid.length = 1024 := h r (by simp)
    have ht := ih (fun x hx => h x (by simp [hx]))
    rw [weightedCentroidSum_cons, vecAdd_length, scaleVector_length, hr, ht]
    simp

theorem dampenedCentroidSum_length {l : List ResolvedCentroid}
    (h : ∀ r ∈ l, r.centroid.length = 1024) :
    (dampenedCentroidSum l).length = 1024 := by
  induction l with
  | nil => simp [dampenedCentroidSum]
  | cons r t ih =>
    have hr : r.centroid.length = 1024 := h r (by simp)
    have ht := ih (fun x hx => h x (by simp [hx]))
    rw [dampenedCentroidSum_cons, vecAdd_length, scaleVector_length, hr, ht]
    simp

theorem foldlM_addVectors {l : List ResolvedCentroid} {v : List ℝ}
    (hv : v.length = 1024) (hl : ∀ r ∈ l, r.centroid.length = 1024) :
    l.foldlM (fun v r => addVectors v (scaleVector r.centroid r.weight)) v =
      Except.ok (vecAdd v (weightedCentroidSum l)) := by
  induction l generalizing v with
  | nil =>
    rw [List.foldlM_nil, show weightedCentroidSum [] = List.replicate 1024 0 from rfl,
      vecAdd_zero_right hv]
    rfl
  | cons r t ih =>
    have hr : r.centroid.length = 1024 := hl r (by simp)
    have step : addVectors v (scaleVector r.centroid r.weight) =
        Except.ok (vecAdd v (scaleVector r.centroid r.weight)) := by
      rw [addVectors, if_pos (by rw [scaleVector_length, hv, hr])]
      rfl
    have hlen : (vecAdd v (scaleVector r.centroid r.weight)).length = 1024 := by
      rw [vecAdd_length, scaleVector_length, hv, hr]
      simp
    have ht := ih hlen (fun x hx => hl x (by simp [hx]))
    rw [List.foldlM_cons, step,
      show (do
          let init ← (Except.ok (vecAdd v (scaleVector r.centroid r.weight)) :
            Except String (List ℝ))
          List.foldlM (fun v r => addVectors v (scaleVector r.centroid r.weight)) init t) =
        List.foldlM (fun v r => addVectors v (scaleVector r.centroid r.weight))
          (vecAdd v (scaleVector r.centroid r.weight)) t from rfl,
      ht, weightedCentroidSum_cons, ← vecAdd_assoc]

theorem foldlM_subtractVectors {l : List ResolvedCentroid} {v : List ℝ}
    (hv : v.length = 1024) (hl : ∀ r ∈ l, r.centroid.length = 1024) :
    l.foldlM (fun v r =>
        subtractVectors v (scaleVector r.centroid (r.weight * UNLIKE_DAMPENING))) v =
      Except.ok (vecSub v (dampenedCentroidSum l)) := by
  induction l generalizing v with
  | nil =>
    have hz : vecSub v (List.replicate 1024 0) = v := by
      apply List.ext_getElem
      · simp [vecSub, hv]
      · intro i h₁ h₂
        simp only [vecSub, List.getElem_zipWith, List.getElem_replicate, sub_zero]
    rw [List.foldlM_nil, show dampenedCentroidSum [] = List.replicate 1024 0 from rfl, hz]
    rfl
  | cons r t ih =>
    have hr : r.centroid.length = 1024 := hl r (by simp)
    have step : subtractVectors v (scaleVector r.centroid (r.weight * UNLIKE_DAMPENING)) =
        Except.ok (vecSub v (scaleVector r.centroid (r.weight * UNLIKE_DAMPENING))) := by
      rw [subtractVectors, if_pos (by rw [scaleVector_length, hv, hr])]
      rfl
    have hlen :
        (vecSub v (scaleVector r.centroid (r.weight * UNLIKE_DAMPENING))).length = 1024 := by
      rw [vecSub_length, scaleVector_length, hv, hr]
      simp
    have ht := ih hlen (fun x hx => hl x (by simp [hx]))
    rw [List.foldlM_cons, step,
      show (do
          let init ← (Except.ok (vecSub v (scaleVector r.centroid
            (r.weight * UNLIKE_DAMPENING))) : Except String (List ℝ))
          List.foldlM (fun v r =>
            subtractVectors v (scaleVector r.centroid (r.weight * UNLIKE_DAMPENING))) init t) =
        List.foldlM (fun v r =>
            subtractVectors v (scaleVector r.centroid (r.weight * UNLIKE_DAMPENING)))
          (vecSub v (scaleVector r.centroid (r.weight * UNLIKE_DAMPENING))) t from rfl,
      ht, dampenedCentroidSum_cons, ← vecSub_vecSub]

theorem vecSub_zero_right {n : ℕ} {v : List ℝ} (h : v.length = n) :
    vecSub v (List.replicate n 0) = v := by
  apply List.ext_getElem
  · simp [vecSub, h]
  · intro i h₁ h₂
    simp only [vecSub, List.getElem_zipWith, List.getElem_replicate, sub_zero]

theorem weightedCentroidSum_append {l₁ l₂ : List ResolvedCentroid}
    (h₂ : ∀ r ∈ l₂, r.centroid.length = 1024) :
    weightedCentroidSum (l₁ ++ l₂) =
      vecAdd (weightedCentroidSum l₁) (weightedCentroidSum l₂) := by
  induction l₁ with
  | nil =>
    rw [List.nil_append, show weightedCentroidSum [] = List.replicate 1024 0 from rfl,
      vecAdd_zero_left (weightedCentroidSum_length h₂)]
  | cons r t ih =>
    rw [List.cons_append, weightedCentroidSum_cons, weightedCentroidSum_cons, ih,
      vecAdd_assoc]

theorem dampenedCentroidSum_append {l₁ l₂ : List ResolvedCentroid}
    (h₂ : ∀ r ∈ l₂, r.centroid.length = 1024) :
    dampenedCentroidSum (l₁ ++ l₂) =
      vecAdd (dampenedCentroidSum l₁) (dampenedCentroidSum l₂) := by
  induction l₁ with
  | nil =>
    rw [List.nil_append, show dampenedCentroidSum [] = List.replicate 1024 0 from rfl,
      vecAdd_zero_left (dampenedCentroidSum_length h₂)]
  | cons r t ih =>
    rw [List.cons_append, dampenedCentroidSum_cons, dampenedCentroidSum_cons, ih,
      vecAdd_assoc]

/-- The composed query vector equals the normalized spec-side Rocchio
combination whenever all embeddings and resolved centroids have the
configured dimension 1024. -/
theorem composeQueryVector_eq_rocchio (embed : String → List ℝ)
    (queryText negativeQuery : Option String)
    (lS uS lP uP : List ResolvedCentroid)
    (hE : ∀ s, (embed s).length = 1024)
    (h1 : ∀ r ∈ lS, r.centroid.length = 1024)
    (h2 : ∀ r ∈ uS, r.centroid.length = 1024)
    (h3 : ∀ r ∈ lP, r.centroid.length = 1024)
    (h4 : ∀ r ∈ uP, r.centroid.length = 1024) :
    composeQueryVector embed queryText negativeQuery lS uS lP uP =
      Except.ok (normalizeVector
        (rocchioTarget embed queryText negativeQuery (lS ++ lP) (uS ++ uP))) := by
  set base : List ℝ :=
    if truthyStr queryText then embed (queryText.getD "") else List.replicate 1024 0 with hbasedef
  have hbase : base.length = 1024 := by
    rw [hbasedef]
    by_cases hq : truthyStr queryText
    · simp [hq, hE]
    · simp [hq]
  set base2 : List ℝ :=
    if truthyStr negativeQuery then vecSub base (embed (negativeQuery.getD "")) else base
    with hbase2def
  have hbase2 : base2.length = 1024 := by
    rw [hbase2def]
    by_cases hn : truthyStr negativeQuery
    · simp [hn, vecSub_length, hbase, hE]
    · simp [hn, hbase]
  have hv1 : (if truthyStr negativeQuery then
        subtractVectors base (embed (negativeQuery.getD "")) else pure base) =
      Except.ok base2 := by
    by_cases hn : truthyStr negativeQuery
    · rw [if_pos hn, subtractVectors, if_pos (by rw [hbase, hE]), hbase2def, if_pos hn]
      rfl
    · rw [if_neg hn, hbase2def, if_neg hn]
      rfl
  have hlen2 : (vecAdd base2 (weightedCentroidSum lS)).length = 1024 := by
    rw [vecAdd_length, hbase2, weightedCentroidSum_length h1]
    simp
  have hlen3 : (vecSub (vecAdd base2 (weightedCentroidSum lS))
      (dampenedCentroidSum uS)).length = 1024 := by
    rw [vecSub_length, hlen2, dampenedCentroidSum_length h2]
    simp
  have hlen4 : (vecAdd (vecSub (vecAdd base2 (weightedCentroidSum lS))
      (dampenedCentroidSum uS)) (weightedCentroidSum lP)).length = 1024 := by
    rw [vecAdd_length, hlen3, weightedCentroidSum_length h3]
    simp
  simp only [composeQueryVector, ← hbasedef]
  rw [hv1]
  simp only [bind, Except.bind]
  rw [foldlM_addVectors hbase2 h1]
  simp only [bind, Except.bind]
  rw [foldlM_subtractVectors hlen2 h2]
  simp only [bind, Except.bind]
  rw [foldlM_addVectors hlen3 h3]
  simp only [bind, Except.bind]
  rw [foldlM_subtractVectors hlen4 h4]
  simp only [bind, Except.bind, pure, Except.pure]
  congr 1
  rw [rocchioTarget, weightedCentroidSum_append h3, dampenedCentroidSum_append h4]
  rw [vecAdd_vecSub_swap, vecAdd_assoc, vecSub_vecSub]

/-- C1.  For every search in semantic or hybrid mode the composed query
vector is the unit-normalization of: the embedding of the query text (or
the zero vector when absent), minus the embedding of `negativeQuery`
when given, plus `weight * centroid` for every resolved positive
session/project exemplar, minus `UNLIKE_DAMPENING * weight * centroid`
(dampening 0.2) for every resolved negative exemplar; and with
`likeSession=["S:2.0"]` (a session `S` whose centroid resolves, weight
2.0) and no free-text query, the composed vector is
`normalize(2.0 * centroid(S))`. -/
theorem composeQueryVector_rocchio_spec :
    (∀ (embed : String → List ℝ) (queryText negativeQuery : Option String)
        (lS uS lP uP : List ResolvedCentroid),
      (∀ s, (embed s).length = 1024) →
      (∀ r ∈ lS, r.centroid.length = 1024) →
      (∀ r ∈ uS, r.centroid.length = 1024) →
      (∀ r ∈ lP, r.centroid.length = 1024) →
      (∀ r ∈ uP, r.centroid.length = 1024) →
      composeQueryVector embed queryText negativeQuery lS uS lP uP =
        Except.ok (normalizeVector
          (rocchioTarget embed queryText negativeQuery (lS ++ lP) (uS ++ uP)))) ∧
    (∀ (embed : String → List ℝ) (c : List ℝ),
      (∀ s, (embed s).length = 1024) → c.length = 1024 →
      composeQueryVector embed none none [⟨"7", 2, c⟩] [] [] [] =
        Except.ok (normalizeVector (scaleVector c 2))) := by
  constructor
  · exact composeQueryVector_eq_rocchio
  · intro embed c hE hc
    rw [composeQueryVector_eq_rocchio embed none none [⟨"7", 2, c⟩] [] [] [] hE
      (by simpa using hc) (by simp) (by simp) (by simp)]
    congr 1
    rw [rocchioTarget]
    simp only [truthyStr, Bool.false_eq_true, if_false, List.append_nil]
    rw [weightedCentroidSum_cons, show weightedCentroidSum [] = List.replicate 1024 0 from rfl,
      show dampenedCentroidSum [] = List.replicate 1024 0 from rfl]
    have hs : (scaleVector c (2:ℝ)).length = 1024 := by rw [scaleVector_length, hc]
    rw [vecAdd_zero_right hs, vecAdd_zero_left hs, vecSub_zero_right hs]

/-- Witness for C1 at a concrete input: constant zero embedding oracle
and the all-ones centroid of length 1024 with weight 2. -/
theorem composeQueryVector_rocchio_spec_witness :
    composeQueryVector (fun _ => List.replicate 1024 0) none none
      [⟨"7", 2, List.replicate 1024 1⟩] [] [] [] =
      Except.ok (normalizeVector (scaleVector (List.replicate 1024 1) 2)) :=
  composeQueryVector_rocchio_spec.2 (fun _ => List.replicate 1024 0)
    (List.replicate 1024 1) (fun _ => by simp) (by simp)

theorem centroidLoop_eq_retrievedVectors (store : String → Option (List ℝ))
    (totalCount : ℕ) (rows : List CentroidMsgRow) (sum : List ℝ) (processed : ℕ) :
    centroidLoop store totalCount rows sum processed =
      ((retrievedVectors store totalCount rows processed).foldl vecAdd sum,
        processed + (retrievedVectors store totalCount rows processed).length) := by
  suffices h : ∀ (n : ℕ) (rows : List CentroidMsgRow), rows.length ≤ n →
      ∀ (sum : List ℝ) (processed : ℕ),
      centroidLoop store totalCount rows sum processed =
        ((retrievedVectors store totalCount rows processed).foldl vecAdd sum,
          processed + (retrievedVectors store totalCount rows processed).length) from
    h rows.length rows le_rfl sum processed
  intro n
  induction n with
  | zero =>
    intro rows hr sum processed
    have hnil : rows = [] := List.eq_nil_of_length_eq_zero (Nat.le_zero.mp hr)
    subst hnil
    rw [centroidLoop.eq_def, retrievedVectors.eq_def]
    by_cases hc : totalCount ≤ processed <;> simp [hc]
  | succ n ih =>
    intro rows hr sum processed
    rw [centroidLoop.eq_def, retrievedVectors.eq_def]
    by_cases hc : totalCount ≤ processed
    · simp [hc]
    · cases rows with
      | nil => simp [hc]
      | cons a t =>
        simp only [hc, if_neg, ite_false]
        have hlen : ((a :: t).drop CENTROID_BATCH_SIZE).length ≤ n := by
          simp only [List.length_drop, List.length_cons] at hr ⊢
          simp only [CENTROID_BATCH_SIZE]
          omega
        rw [ih _ hlen]
        simp [List.foldl_append, List.length_append, Nat.add_assoc]

theorem retrievedVectors_zero_total (store : String → Option (List ℝ))
    (rows : List CentroidMsgRow) (processed : ℕ) :
    retrievedVectors store 0 rows processed = [] := by
  rw [retrievedVectors.eq_def]
  simp

/-- When at least one vector is actually retrieved, the computed
centroid is the unit-normalized mean (sum over the retrieved vectors
divided by their number), returned together with that number. -/
theorem computeSessionCentroid_eq_mean (store : String → Option (List ℝ))
    (rows : List CentroidMsgRow)
    (h : retrievedVectors store (eligibleMessageCount rows) rows 0 ≠ []) :
    computeSessionCentroid store rows =
      some (normalizeVector
          (((retrievedVectors store (eligibleMessageCount rows) rows 0).foldl vecAdd
              (List.replicate BGE_DIMENSIONS 0)).map fun s =>
            s / (((retrievedVectors store (eligibleMessageCount rows) rows 0).length : ℕ) : ℝ)),
        (retrievedVectors store (eligibleMessageCount rows) rows 0).length) := by
  have htot : eligibleMessageCount rows ≠ 0 := by
    intro h0
    exact h (by rw [h0, retrievedVectors_zero_total])
  have hcnt : (retrievedVectors store (eligibleMessageCount rows) rows 0).length ≠ 0 := by
    simpa [List.length_eq_zero] using h
  simp only [computeSessionCentroid, if_neg htot,
    centroidLoop_eq_retrievedVectors store (eligibleMessageCount rows) rows
      (List.replicate BGE_DIMENSIONS 0) 0, Nat.zero_add, if_neg hcnt]

theorem filterMap_eq_map_const {α : Type} (f : α → Option (List ℝ)) (v : List ℝ)
    (l : List α) (h : ∀ x ∈ l, f x = some v) :
    l.filterMap f = l.map fun _ => v := by
  induction l with
  | nil => simp
  | cons a t ih =>
    rw [List.filterMap_cons, h a (by simp), List.map_cons, ih (fun x hx => h x (by simp [hx]))]

theorem retrievedVectors_all_present (store : String → Option (List ℝ)) (v : List ℝ)
    (hv : v.length = BGE_DIMENSIONS) (rows : List CentroidMsgRow)
    (hs : ∀ r ∈ rows, store r.chromaId = some v)
    (processed totalCount : ℕ) (htc : totalCount = processed + rows.length) :
    retrievedVectors store totalCount rows processed = rows.map fun _ => v := by
  suffices hgen : ∀ (n : ℕ) (rows : List CentroidMsgRow), rows.length ≤ n →
      (∀ r ∈ rows, store r.chromaId = some v) →
      ∀ (processed totalCount : ℕ), totalCount = processed + rows.length →
      retrievedVectors store totalCount rows processed = rows.map fun _ => v from
    hgen rows.length rows le_rfl hs processed totalCount htc
  intro n
  induction n with
  | zero =>
    intro rows hr _ processed totalCount htc
    have hnil : rows = [] := List.eq_nil_of_length_eq_zero (Nat.le_zero.mp hr)
    subst hnil
    rw [retrievedVectors.eq_def]
    simp
  | succ n ih =>
    intro rows hr hs processed totalCount htc
    rw [retrievedVectors.eq_def]
    by_cases hc : totalCount ≤ processed
    · have hnil : rows = [] := by
        have : rows.length = 0 := by omega
        exact List.eq_nil_of_length_eq_zero this
      subst hnil
      simp [hc]
    · cases rows with
      | nil => simp [hc]
      | cons a t =>
        simp only [hc, ite_false]
        have hpage : ∀ r ∈ (a :: t).take CENTROID_BATCH_SIZE, store r.chromaId = some v :=
          fun r hrr => hs r (List.mem_of_mem_take hrr)
        have hfm : ((a :: t).take CENTROID_BATCH_SIZE).filterMap (fun r => store r.chromaId) =
            ((a :: t).take CENTROID_BATCH_SIZE).map fun _ => v :=
          filterMap_eq_map_const _ v _ hpage
        have hflt : (((a :: t).take CENTROID_BATCH_SIZE).map fun _ => v).filter
            (fun e => decide (e.length = BGE_DIMENSIONS)) =
            ((a :: t).take CENTROID_BATCH_SIZE).map fun _ => v := by
          apply List.filter_eq_self.mpr
          intro x hx
          have : x = v := by
            rcases List.mem_map.mp hx with ⟨_, _, hxe⟩
            exact hxe.symm
          subst this
          simp [hv]
        rw [hfm, hflt]
        have hdroplen : ((a :: t).drop CENTROID_BATCH_SIZE).length ≤ n := by
          simp only [List.length_drop, List.length_cons] at hr ⊢
          simp only [CENTROID_BATCH_SIZE]
          omega
        have hdropmem : ∀ r ∈ (a :: t).drop CENTROID_BATCH_SIZE, store r.chromaId = some v :=
          fun r hrr => hs r (List.mem_of_mem_drop hrr)
        have htclen : totalCount =
            (processed + (((a :: t).take CENTROID_BATCH_SIZE).map fun _ => v).length) +
              ((a :: t).drop CENTROID_BATCH_SIZE).length := by
          simp only [List.length_map, List.length_take, List.length_drop] at htc ⊢
          omega
        rw [ih _ hdroplen hdropmem _ _ htclen]
        rw [← List.map_append]
        rw [List.take_append_drop]

theorem foldl_vecAdd_replicate (v : List ℝ) (hv : v.length = 1024) :
    ∀ (n : ℕ) (acc : List ℝ), acc.length = 1024 →
      (List.replicate n v).foldl vecAdd acc =
        List.zipWith (fun a x => a + (n : ℝ) * x) acc v := by
  intro n
  induction n with
  | zero =>
    intro acc hacc
    apply List.ext_getElem
    · simp [hacc, hv]
    · intro i h₁ h₂
      simp [List.getElem_zipWith]
  | succ n ih =>
    intro acc hacc
    rw [List.replicate_succ, List.foldl_cons]
    have haddlen : (vecAdd acc v).length = 1024 := by
      rw [vecAdd_length, hacc, hv]
      simp
    rw [ih _ haddlen]
    apply List.ext_getElem
    · simp [vecAdd, hacc, hv]
    · intro i h₁ h₂
      simp only [vecAdd, List.getElem_zipWith]
      push_cast
      ring

theorem normalizeVector_unit (v : List ℝ)
    (hnorm : v.foldl (fun sum val => sum + val * val) 0 = 1) :
    normalizeVector v = v := by
  rw [normalizeVector]
  simp only [hnorm, Real.sqrt_one, one_ne_zero, ite_false]
  apply List.ext_getElem
  · simp
  · intro i h₁ h₂
    simp

theorem foldl_squares_replicate : ∀ (n : ℕ) (a r : ℝ),
    (List.replicate n r).foldl (fun sum val => sum + val * val) a = a + n * (r * r) := by
  intro n
  induction n with
  | zero => intro a r; simp
  | succ n ih =>
    intro a r
    rw [List.replicate_succ, List.foldl_cons, ih]
    push_cast
    ring

/-- C2 counterexample.  A scope with exactly one eligible message-level
vector (eligible count 1) whose vector is absent from the vector store:
the claim's "otherwise" branch promises a normalized mean, but
`computeSessionCentroid` returns none. -/
theorem computeSessionCentroid_missing_vector_counterexample :
    eligibleMessageCount [⟨1, some 20, "msg-1"⟩] = 1 ∧
    computeSessionCentroid (fun _ => none) [⟨1, some 20, "msg-1"⟩] = none := by
  refine ⟨rfl, ?_⟩
  have hretr : retrievedVectors (fun _ => none) 1 [⟨1, some 20, "msg-1"⟩] 0 = [] := by
    rw [retrievedVectors.eq_def]
    simp only [CENTROID_BATCH_SIZE]
    norm_num
    rw [retrievedVectors.eq_def]
    simp
  have h1 : eligibleMessageCount [⟨1, some 20, "msg-1"⟩] = 1 := rfl
  simp only [computeSessionCentroid, h1]
  rw [centroidLoop_eq_retrievedVectors, hretr]
  simp

/-- C2 (amended).  `computeSessionCentroid` returns none when the scope
has zero eligible message-level vectors, and also when no vector is
actually retrieved from the vector store despite a positive eligible
count; when at least one vector is retrieved it returns the
unit-normalized element-wise mean of exactly the retrieved vectors (sum
divided by the number actually summed, not the expected total) together
with that number; the centroid of N identical unit vectors is that
vector; and `computeProjectCentroid` is the same function of its scope's
rows. -/
theorem computeSessionCentroid_spec :
    (∀ (store : String → Option (List ℝ)) (rows : List CentroidMsgRow),
      eligibleMessageCount rows = 0 → computeSessionCentroid store rows = none) ∧
    (∀ (store : String → Option (List ℝ)) (rows : List CentroidMsgRow),
      retrievedVectors store (eligibleMessageCount rows) rows 0 ≠ [] →
      computeSessionCentroid store rows =
        some (normalizeVector
            (((retrievedVectors store (eligibleMessageCount rows) rows 0).foldl vecAdd
                (List.replicate BGE_DIMENSIONS 0)).map fun s =>
              s / (((retrievedVectors store (eligibleMessageCount rows) rows 0).length : ℕ) : ℝ)),
          (retrievedVectors store (eligibleMessageCount rows) rows 0).length)) ∧
    (∀ (store : String → Option (List ℝ)) (rows : List CentroidMsgRow) (v : List ℝ),
      v.length = BGE_DIMENSIONS →
      v.foldl (fun sum val => sum + val * val) 0 = 1 →
      rows ≠ [] →
      (∀ r ∈ rows, ∃ n, r.contentLen = some n ∧ 10 < n) →
      (∀ r ∈ rows, store r.chromaId = some v) →
      computeSessionCentroid store rows = some (v, rows.length)) ∧
    (∀ (store : String → Option (List ℝ)) (rows : List CentroidMsgRow),
      computeProjectCentroid store rows = computeSessionCentroid store rows) := by
  refine ⟨?_, ?_, ?_, fun _ _ => rfl⟩
  · intro store rows h
    simp [computeSessionCentroid, h]
  · exact computeSessionCentroid_eq_mean
  · intro store rows v hv hunit hne helig hstore
    have htot : eligibleMessageCount rows = rows.length := by
      rw [eligibleMessageCount, List.filter_eq_self.mpr]
      intro r hr
      obtain ⟨n, hcl, h10⟩ := helig r hr
      rw [hcl]
      simpa using h10
    have hretr : retrievedVectors store (eligibleMessageCount rows) rows 0 =
        rows.map fun _ => v := by
      apply retrievedVectors_all_present store v hv rows hstore
      rw [htot, Nat.zero_add]
    have hmapne : (rows.map fun _ => v) ≠ [] := by
      simpa using hne
    rw [computeSessionCentroid_eq_mean store rows (by rw [hretr]; exact hmapne), hretr]
    have hlenmap : (rows.map fun _ => v).length = rows.length := List.length_map _ _
    have hrep : (rows.map fun _ => v) = List.replicate rows.length v := by
      have hmem : ∀ x ∈ rows.map fun _ => v, x = v := by
        intro x hx
        rcases List.mem_map.mp hx with ⟨_, _, hxe⟩
        exact hxe.symm
      have := List.eq_replicate_of_mem hmem
      rwa [hlenmap] at this
    have hpos : 0 < rows.length := List.length_pos.mpr hne
    have hnz : ((rows.length : ℕ) : ℝ) ≠ 0 := Nat.cast_ne_zero.mpr hpos.ne'
    have hv1024 : v.length = 1024 := hv.trans rfl
    have hsum : (rows.map fun _ => v).foldl vecAdd (List.replicate BGE_DIMENSIONS 0) =
        List.zipWith (fun a x => a + (rows.length : ℝ) * x) (List.replicate 1024 0) v := by
      rw [hrep]
      exact foldl_vecAdd_replicate v hv1024 rows.length _ (by simp [BGE_DIMENSIONS])
    rw [hsum, hlenmap]
    have hmean : (List.zipWith (fun a x => a + (rows.length : ℝ) * x)
        (List.replicate 1024 0) v).map (fun s => s / ((rows.length : ℕ) : ℝ)) = v := by
      apply List.ext_getElem
      · simp [hv1024]
      · intro i h₁ h₂
        simp only [List.getElem_map, List.getElem_zipWith, List.getElem_replicate, zero_add]
        rw [mul_comm, mul_div_assoc, div_self hnz, mul_one]
    rw [hmean, normalizeVector_unit v hunit]

/-- Witness for C2 at a concrete input: one eligible row whose stored
vector is the constant `1/32` vector of length 1024 (a unit vector). -/
theorem computeSessionCentroid_spec_witness :
    computeSessionCentroid (fun _ => some (List.replicate 1024 ((1 : ℝ)/32)))
      [⟨1, some 11, "msg-1"⟩] = some (List.replicate 1024 ((1 : ℝ)/32), 1) :=
  computeSessionCentroid_spec.2.2.1 (fun _ => some (List.replicate 1024 ((1 : ℝ)/32)))
    [⟨1, some 11, "msg-1"⟩] (List.replicate 1024 ((1 : ℝ)/32))
    (by simp [BGE_DIMENSIONS])
    (by rw [foldl_squares_replicate]; norm_num)
    (by simp)
    (by
      intro r hr
      simp only [List.mem_singleton] at hr
      subst hr
      exact ⟨11, rfl, by norm_num⟩)
    (fun _ _ => rfl)

/-- C8.  `classifyNoise` is a pure function of the text: below 50
characters it returns exactly the too-short reason; at 50 or more it
returns a pattern reason exactly when some fixed pattern matches, and
none otherwise; a concrete 200-character ordinary sentence is not noise
and a 10-character string is too-short noise.  (Purity and determinism
are inherent: the function is defined without any state or effects.) -/
theorem classifyNoise_spec :
    (∀ t : String, t.length < 50 →
      classifyNoise t = some ("too-short:" ++ toString t.length)) ∧
    (∀ t : String, 50 ≤ t.length →
      (∃ p, p ∈ NOISE_PATTERNS ∧ p.test t = true ∧
          classifyNoise t = some ("pattern:" ++ p.source)) ∨
        ((∀ p ∈ NOISE_PATTERNS, p.test t = false) ∧ classifyNoise t = none)) ∧
    (("This conversation covers the design of a small semantic search engine for chat history, with embedding generation, centroid aggregation, and a solid hybrid ranking strategy over stored conversations!!" : String).length = 200 ∧
      classifyNoise "This conversation covers the design of a small semantic search engine for chat history, with embedding generation, centroid aggregation, and a solid hybrid ranking strategy over stored conversations!!" = none) ∧
    (("0123456789" : String).length = 10 ∧
      classifyNoise "0123456789" = some "too-short:10") := by
  refine ⟨?_, ?_, ⟨by decide, by decide⟩, ⟨by decide, by decide⟩⟩
  · intro t ht
    rw [classifyNoise, if_pos ht]
  · intro t ht
    rw [classifyNoise, if_neg (by omega)]
    rcases hf : NOISE_PATTERNS.find? (fun p => p.test t) with _ | p
    · refine .inr ⟨?_, by simp [hf]⟩
      intro p hp
      have := List.find?_eq_none.mp hf p hp
      simpa using this
    · have hmem := List.mem_of_find?_eq_some hf
      have htest := List.find?_some hf
      exact .inl ⟨p, hmem, by simpa using htest, by simp [hf]⟩

/-- Witness for C8 at a concrete input: a 63-character tool-output
string matches the SQL pattern branch of the classifier. -/
theorem classifyNoise_spec_witness :
    50 ≤ ("   42 rows affected by the last statement of the migration run" : String).length ∧
    ((∃ p, p ∈ NOISE_PATTERNS ∧
        p.test "   42 rows affected by the last statement of the migration run" = true ∧
        classifyNoise "   42 rows affected by the last statement of the migration run" =
          some ("pattern:" ++ p.source)) ∨
      ((∀ p ∈ NOISE_PATTERNS,
          p.test "   42 rows affected by the last statement of the migration run" = false) ∧
        classifyNoise "   42 rows affected by the last statement of the migration run" = none)) :=
  ⟨by decide, classifyNoise_spec.2.1
    "   42 rows affected by the last statement of the migration run" (by decide)⟩

theorem find?_map_invariant {α : Type} (p : α → Bool) (f : α → α) (l : List α)
    (hpres : ∀ x, p (f x) = p x) :
    (l.map f).find? p = (l.find? p).map f := by
  induction l with
  | nil => rfl
  | cons a t ih =>
    rw [List.map_cons]
    by_cases hpa : p a = true
    · rw [List.find?_cons_of_pos _ (by rw [hpres]; exact hpa), List.find?_cons_of_pos _ hpa]
      rfl
    · rw [List.find?_cons_of_neg _ (by rw [hpres]; exact hpa), List.find?_cons_of_neg _ hpa, ih]

theorem lookupRec_markUnembeddable_self (embs : List EmbRec) (mid : ℕ) (reason : String)
    (detail : Option String) (now : ℤ) :
    lookupRec (markUnembeddable embs mid reason detail now) mid "UNEMBEDDABLE" =
      some (markedRec (lookupRec embs mid "UNEMBEDDABLE") mid reason detail now) := by
  rcases h : lookupRec embs mid "UNEMBEDDABLE" with _ | r
  · rw [markUnembeddable, h]
    rw [lookupRec, List.find?_append]
    rw [lookupRec] at h
    rw [h, Option.none_or]
    rw [List.find?_cons_of_pos _ (by simp)]
    rfl
  · rw [markUnembeddable, h]
    have hpres : ∀ x : EmbRec,
        (fun r => decide (r.message_id = mid ∧ r.chroma_collection = "UNEMBEDDABLE"))
          ((fun r : EmbRec => if r.message_id = mid ∧ r.chroma_collection = "UNEMBEDDABLE" then
            { r with
              failure_reason := some reason
              failure_detail := (match detail with
                | some d => some d
                | none => r.failure_detail)
              retry_count := if reason = "nan" then r.retry_count + 1 else r.retry_count
              updated_at := now }
          else r) x) =
        (fun r => decide (r.message_id = mid ∧ r.chroma_collection = "UNEMBEDDABLE")) x := by
      intro x
      by_cases hx : x.message_id = mid ∧ x.chroma_collection = "UNEMBEDDABLE"
      · simp [hx]
      · simp [hx]
    rw [lookupRec, find?_map_invariant _ _ _ hpres]
    rw [lookupRec] at h
    rw [h]
    have hr : r.message_id = mid ∧ r.chroma_collection = "UNEMBEDDABLE" := by
      have := List.find?_some h
      simpa using this
    simp only [Option.map_some', if_pos hr, markedRec]

theorem lookupRec_markUnembeddable_preserved (embs : List EmbRec) (mid mid' : ℕ)
    (coll : String) (reason : String) (detail : Option String) (now : ℤ)
    (hkey : mid ≠ mid' ∨ coll ≠ "UNEMBEDDABLE") :
    lookupRec (markUnembeddable embs mid' reason detail now) mid coll =
      lookupRec embs mid coll := by
  rcases h : lookupRec embs mid' "UNEMBEDDABLE" with _ | r
  · rw [markUnembeddable, h]
    rw [lookupRec, List.find?_append]
    have hsingle : List.find?
        (fun r : EmbRec => decide (r.message_id = mid ∧ r.chroma_collection = coll))
        ([⟨mid', "UNEMBEDDABLE", "unembeddable-" ++ toString mid', "none", 0, 0,
          some reason, detail, if reason = "nan" then 1 else 0, now⟩] : List EmbRec) = none := by
      rw [List.find?_cons_of_neg]
      · rfl
      · simp only [decide_eq_true_eq]
        rintro ⟨h1, h2⟩
        rcases hkey with hk | hk
        · exact hk h1.symm
        · exact hk h2.symm
    rw [hsingle, Option.or_none]
    rfl
  · rw [markUnembeddable, h]
    have hpres : ∀ x : EmbRec,
        (fun r => decide (r.message_id = mid ∧ r.chroma_collection = coll))
          ((fun r : EmbRec => if r.message_id = mid' ∧ r.chroma_collection = "UNEMBEDDABLE" then
            { r with
              failure_reason := some reason
              failure_detail := (match detail with
                | some d => some d
                | none => r.failure_detail)
              retry_count := if reason = "nan" then r.retry_count + 1 else r.retry_count
              updated_at := now }
          else r) x) =
        (fun r => decide (r.message_id = mid ∧ r.chroma_collection = coll)) x := by
      intro x
      by_cases hx : x.message_id = mid' ∧ x.chroma_collection = "UNEMBEDDABLE"
      · simp [hx]
      · simp [hx]
    rw [lookupRec, find?_map_invariant _ _ _ hpres]
    rw [lookupRec]
    rcases hl : List.find?
        (fun r => decide (r.message_id = mid ∧ r.chroma_collection = coll)) embs with _ | q
    · rw [hl]
      rfl
    · rw [hl]
      have hq : q.message_id = mid ∧ q.chroma_collection = coll := by
        have := List.find?_some hl
        simpa using this
      have hnot : ¬(q.message_id = mid' ∧ q.chroma_collection = "UNEMBEDDABLE") := by
        rintro ⟨h1, h2⟩
        rcases hkey with hk | hk
        · exact hk (hq.1 ▸ h1)
        · exact hk (hq.2 ▸ h2)
      simp [hnot]

/-- C9.  `markUnembeddable` with reason noise creates a fresh record
with `retry_count` 0 and never increments an existing record's count;
with reason nan it sets a fresh count of 1 and increments an existing
count; `updated_at` is refreshed to now on every call. -/
theorem markUnembeddable_retry_spec :
    (∀ (embs : List EmbRec) (mid : ℕ) (detail : Option String) (now : ℤ),
      lookupRec embs mid "UNEMBEDDABLE" = none →
      ∃ rec, lookupRec (markUnembeddable embs mid "noise" detail now) mid "UNEMBEDDABLE" =
          some rec ∧ rec.failure_reason = some "noise" ∧ rec.retry_count = 0 ∧
          rec.updated_at = now) ∧
    (∀ (embs : List EmbRec) (mid : ℕ) (detail : Option String) (now : ℤ) (r₀ : EmbRec),
      lookupRec embs mid "UNEMBEDDABLE" = some r₀ →
      ∃ rec, lookupRec (markUnembeddable embs mid "noise" detail now) mid "UNEMBEDDABLE" =
          some rec ∧ rec.failure_reason = some "noise" ∧ rec.retry_count = r₀.retry_count ∧
          rec.updated_at = now) ∧
    (∀ (embs : List EmbRec) (mid : ℕ) (detail : Option String) (now : ℤ),
      lookupRec embs mid "UNEMBEDDABLE" = none →
      ∃ rec, lookupRec (markUnembeddable embs mid "nan" detail now) mid "UNEMBEDDABLE" =
          some rec ∧ rec.failure_reason = some "nan" ∧ rec.retry_count = 1 ∧
          rec.updated_at = now) ∧
    (∀ (embs : List EmbRec) (mid : ℕ) (detail : Option String) (now : ℤ) (r₀ : EmbRec),
      lookupRec embs mid "UNEMBEDDABLE" = some r₀ →
      ∃ rec, lookupRec (markUnembeddable embs mid "nan" detail now) mid "UNEMBEDDABLE" =
          some rec ∧ rec.failure_reason = some "nan" ∧
          rec.retry_count = r₀.retry_count + 1 ∧ rec.updated_at = now) := by
  refine ⟨?_, ?_, ?_, ?_⟩
  · intro embs mid detail now h
    refine ⟨markedRec none mid "noise" detail now, ?_, rfl, by simp [markedRec], rfl⟩
    rw [lookupRec_markUnembeddable_self, h]
  · intro embs mid detail now r₀ h
    refine ⟨markedRec (some r₀) mid "noise" detail now, ?_, rfl, by simp [markedRec], rfl⟩
    rw [lookupRec_markUnembeddable_self, h]
  · intro embs mid detail now h
    refine ⟨markedRec none mid "nan" detail now, ?_, rfl, by simp [markedRec], rfl⟩
    rw [lookupRec_markUnembeddable_self, h]
  · intro embs mid detail now r₀ h
    refine ⟨markedRec (some r₀) mid "nan" detail now, ?_, rfl, by simp [markedRec], rfl⟩
    rw [lookupRec_markUnembeddable_self, h]

/-- Witness for C9 at concrete inputs: a fresh noise mark has count 0;
a nan re-mark of a record whose count is 1 yields count 2. -/
theorem markUnembeddable_retry_spec_witness :
    (∃ rec, lookupRec (markUnembeddable [] 5 "noise" (some "too-short:3") 1000) 5
        "UNEMBEDDABLE" = some rec ∧ rec.failure_reason = some "noise" ∧
        rec.retry_count = 0 ∧ rec.updated_at = 1000) ∧
    (∃ rec, lookupRec (markUnembeddable (markUnembeddable [] 5 "nan" none 500) 5 "nan"
          none 1000) 5 "UNEMBEDDABLE" = some rec ∧ rec.failure_reason = some "nan" ∧
        rec.retry_count = 1 + 1 ∧ rec.updated_at = 1000) :=
  ⟨markUnembeddable_retry_spec.1 [] 5 (some "too-short:3") 1000 rfl,
    markUnembeddable_retry_spec.2.2.2 (markUnembeddable [] 5 "nan" none 500) 5 none 1000
      ⟨5, "UNEMBEDDABLE", "unembeddable-5", "none", 0, 0, some "nan", none, 1, 500⟩
      (by decide)⟩

/-- C4.  A previously failed item with an `UNEMBEDDABLE` record is
re-offered as a candidate iff its failure reason is nan, its retry
count is below the limit and more than the cooldown has elapsed since
`updated_at`; with the defaults (limit 3, cooldown 7 days):
`retry_count = 3` is never eligible, `retry_count = 1` updated 8 days
ago is eligible, 1 day ago is not, and reason noise is never eligible
regardless of age or count. -/
theorem healingEligibility_spec :
    (∀ (embs : List EmbRec) (now : ℤ) (m : EmbMsg) (rec : EmbRec),
      (∃ c, m.content_text = some c ∧ 10 < c.length) →
      m.role ≠ "tool" →
      (¬ ∃ r ∈ embs, r.message_id = m.id ∧ r.chroma_collection = "convo-messages") →
      rec ∈ embs → rec.message_id = m.id → rec.chroma_collection = "UNEMBEDDABLE" →
      (∀ r ∈ embs, r.message_id = m.id ∧ r.chroma_collection = "UNEMBEDDABLE" → r = rec) →
      (isCandidate embs now m = true ↔
        (rec.failure_reason = some "nan" ∧ rec.retry_count < healingRetryLimit ∧
          now - rec.updated_at > (healingCooldownDays : ℤ) * msPerDay))) ∧
    (∀ (now updated : ℤ) (detail : Option String),
      healingEligible ⟨1, "UNEMBEDDABLE", "unembeddable-1", "none", 0, 0, some "nan",
        detail, 3, updated⟩ now 3 7 = false) ∧
    (∀ now : ℤ,
      healingEligible ⟨1, "UNEMBEDDABLE", "unembeddable-1", "none", 0, 0, some "nan",
        none, 1, now - 8 * msPerDay⟩ now 3 7 = true) ∧
    (∀ now : ℤ,
      healingEligible ⟨1, "UNEMBEDDABLE", "unembeddable-1", "none", 0, 0, some "nan",
        none, 1, now - 1 * msPerDay⟩ now 3 7 = false) ∧
    (∀ (now updated : ℤ) (retry : ℕ),
      healingEligible ⟨1, "UNEMBEDDABLE", "unembeddable-1", "none", 0, 0, some "noise",
        none, retry, updated⟩ now 3 7 = false) := by
  refine ⟨?_, ?_, ?_, ?_, ?_⟩
  · intro embs now m rec hcontent hrole hnoemb hmem hmid hcoll huniq
    rw [isCandidate]
    obtain ⟨c, hc, hclen⟩ := hcontent
    rw [hc]
    simp only [Bool.and_eq_true, decide_eq_true_eq]
    constructor
    · rintro ⟨⟨⟨-, -⟩, -⟩, hall⟩
      have := hall rec hmem ⟨hmid, hcoll⟩
      rw [healingEligible] at this
      simp only [Bool.and_eq_true, decide_eq_true_eq] at this
      obtain ⟨⟨h1, h2⟩, h3⟩ := this
      exact ⟨h1, h2, by omega⟩
    · rintro ⟨h1, h2, h3⟩
      refine ⟨⟨⟨hclen, hrole⟩, hnoemb⟩, ?_⟩
      intro r hr hkey
      rw [huniq r hr hkey, healingEligible]
      simp only [Bool.and_eq_true, decide_eq_true_eq]
      exact ⟨⟨h1, h2⟩, by omega⟩
  · intro now updated detail
    simp [healingEligible]
  · intro now
    simp [healingEligible, msPerDay]
  · intro now
    simp [healingEligible, msPerDay]
  · intro now updated retry
    simp [healingEligible]

/-- Witness for C4 at a concrete input: a single nan record with retry
count 1 updated 8 days before now is re-offered (the iff's right side
holds and the candidate test passes). -/
theorem healingEligibility_spec_witness :
    isCandidate [⟨7, "UNEMBEDDABLE", "unembeddable-7", "none", 0, 0, some "nan",
        none, 1, 0⟩] (9 * msPerDay)
      ⟨7, 3, some "a dozen characters", "user", 0, "/p", "claude_code", none⟩ = true :=
  (healingEligibility_spec.1
    [⟨7, "UNEMBEDDABLE", "unembeddable-7", "none", 0, 0, some "nan", none, 1, 0⟩]
    (9 * msPerDay)
    ⟨7, 3, some "a dozen characters", "user", 0, "/p", "claude_code", none⟩
    ⟨7, "UNEMBEDDABLE", "unembeddable-7", "none", 0, 0, some "nan", none, 1, 0⟩
    ⟨"a dozen characters", rfl, by decide⟩ (by decide) (by decide) (by decide) rfl rfl
    (by decide)).mpr ⟨rfl, by decide, by decide⟩

theorem getMessagesToEmbed_fst (db : EmbDB) (now : ℤ) (limit : ℕ) :
    (getMessagesToEmbed db now limit).1 =
      ((candidateRows db now limit).filter
        fun m => classifyNoise (msgContent m) = none).take limit := rfl

theorem getMessagesToEmbed_exhausted (db : EmbDB) (now : ℤ) (limit : ℕ) :
    (getMessagesToEmbed db now limit).2.1 =
      decide ((candidateRows db now limit).length < overfetchOf limit) := rfl

/-- C5.  One iteration of the production loop breaks exactly when the
raw candidate fetch returned fewer rows than the over-fetched request
AND zero candidates survived noise filtering; an all-noise page with a
full raw fetch continues (with the noise marked) without touching the
stats; and a batch-level exception continues to the next fetch with
only the error counter bumped. -/
theorem generatePendingEmbeddings_loop_spec :
    (∀ (env : OllamaEnv) (now : ℤ) (db : EmbDB) (stats : BatchStats),
      (∃ d s, loopIteration env now db stats = .done d s) ↔
        ((candidateRows db now embBatchSize).filter
            (fun m => classifyNoise (msgContent m) = none) = [] ∧
          (candidateRows db now embBatchSize).length < overfetchOf embBatchSize)) ∧
    (∀ (env : OllamaEnv) (now : ℤ) (db : EmbDB) (stats : BatchStats),
      (candidateRows db now embBatchSize).filter
          (fun m => classifyNoise (msgContent m) = none) = [] →
      ¬ (candidateRows db now embBatchSize).length < overfetchOf embBatchSize →
      loopIteration env now db stats =
        .next (getMessagesToEmbed db now embBatchSize).2.2 stats) ∧
    (∀ (env : OllamaEnv) (now : ℤ) (db : EmbDB) (stats : BatchStats) (ge : GenError),
      (getMessagesToEmbed db now embBatchSize).1 ≠ [] →
      generateEmbeddings env
          (prepareTexts env (getMessagesToEmbed db now embBatchSize).1) = .error ge →
      loopIteration env now db stats =
        .next (getMessagesToEmbed db now embBatchSize).2.2
          { stats with errors := stats.errors + 1 }) := by
  refine ⟨?_, ?_, ?_⟩
  · intro env now db stats
    rw [loopIteration]
    by_cases hk : (candidateRows db now embBatchSize).filter
        (fun m => classifyNoise (msgContent m) = none) = []
    · by_cases hx : (candidateRows db now embBatchSize).length < overfetchOf embBatchSize
      · simp [getMessagesToEmbed_fst, getMessagesToEmbed_exhausted, hk, hx]
      · simp [getMessagesToEmbed_fst, getMessagesToEmbed_exhausted, hk, hx]
    · have hne : (getMessagesToEmbed db now embBatchSize).1 ≠ [] := by
        rw [getMessagesToEmbed_fst]
        intro hcon
        rcases List.take_eq_nil_iff.mp hcon with h | h
        · first
          | exact hk h
          | exact absurd h (by decide)
        · first
          | exact hk h
          | exact absurd h (by decide)
      simp only [List.isEmpty_iff]
      rw [if_neg hne]
      simp [hk]
  · intro env now db stats hk hx
    rw [loopIteration]
    have h1 : (getMessagesToEmbed db now embBatchSize).1 = [] := by
      rw [getMessagesToEmbed_fst, hk, List.take_nil]
    have h2 : (getMessagesToEmbed db now embBatchSize).2.1 = false := by
      rw [getMessagesToEmbed_exhausted]
      simpa using hx
    simp [h1, h2]
  · intro env now db stats ge hne herr
    rw [loopIteration]
    simp only [List.isEmpty_iff]
    rw [if_neg hne, processBatch, herr]

/-- Witness for C5 at a concrete input: one clean candidate message and
an embedding endpoint that throws a non-NaN (connection-style) error;
the iteration continues with the error counter at 1. -/
theorem generatePendingEmbeddings_loop_spec_witness :
    loopIteration ⟨fun _ => .inl ⟨false⟩, fun s => s, fun s => s⟩ 0
        ⟨[⟨1, 1, some "This message is long enough to pass the candidate filter easily.",
          "user", 0, "/p", "claude_code", none⟩], []⟩ ⟨0, 0, 0⟩ =
      .next (getMessagesToEmbed
          ⟨[⟨1, 1, some "This message is long enough to pass the candidate filter easily.",
            "user", 0, "/p", "claude_code", none⟩], []⟩ 0 embBatchSize).2.2
        { (⟨0, 0, 0⟩ : BatchStats) with errors := (⟨0, 0, 0⟩ : BatchStats).errors + 1 } :=
  generatePendingEmbeddings_loop_spec.2.2
    ⟨fun _ => .inl ⟨false⟩, fun s => s, fun s => s⟩ 0
    ⟨[⟨1, 1, some "This message is long enough to pass the candidate filter easily.",
      "user", 0, "/p", "claude_code", none⟩], []⟩ ⟨0, 0, 0⟩ (.ollama ⟨false⟩)
    (by decide) (by rfl)

theorem mapM_except_ok {α β ε : Type} (f : α → Except ε β) (g : α → β)
    (l : List α) (h : ∀ x ∈ l, f x = .ok (g x)) :
    l.mapM f = .ok (l.map g) := by
  induction l with
  | nil => rfl
  | cons a t ih =>
    rw [List.mapM_cons, h a (by simp), ih (fun x hx => h x (by simp [hx]))]
    rfl

theorem itemFallback_eq_spec (env : OllamaEnv)
    (hnan : ∀ s : String, (∃ v, singleEmbed env s = .inr v) ∨
      (∃ e1, singleEmbed env s = .inl e1 ∧ e1.mentionsNaN = true)) (s : String) :
    itemFallback env s = .ok (specItemResult env s) := by
  rcases hnan s with ⟨v, hv⟩ | ⟨e1, he1, hm1⟩
  · simp [itemFallback, specItemResult, hv]
  · rcases hnan (env.summarize s) with ⟨v2, hv2⟩ | ⟨e2, he2, hm2⟩
    · simp [itemFallback, specItemResult, he1, hm1, hv2]
    · rcases hnan (env.rephrase s) with ⟨v3, hv3⟩ | ⟨e3, he3, hm3⟩
      · simp [itemFallback, specItemResult, he1, hm1, he2, hm2, hv3]
      · simp [itemFallback, specItemResult, he1, hm1, he2, hm2, he3]

/-- C3.  When the batch embed throws a NaN error, `generateEmbeddings`
retries every text individually through the summarize-then-rephrase
cascade: an item is `none` (failed) exactly when raw, summarized and
rephrased attempts all fail, every other item still receives its vector,
and the whole batch returns `ok` — it is never aborted by one bad item;
the loop then records each `none` item via
`markUnembeddable(id, "nan", "all fallbacks exhausted")`, which leaves a
record with `failure_reason = "nan"`. -/
theorem generateEmbeddings_nan_fallback_spec :
    ∀ (env : OllamaEnv) (texts : List String) (e : OllamaError),
      env.embedBatch (texts.map sanitizeText) = .inl e →
      e.mentionsNaN = true →
      (∀ t ∈ texts, sanitizeText t ≠ "") →
      (∀ s : String, (∃ v, singleEmbed env s = .inr v) ∨
        (∃ e1, singleEmbed env s = .inl e1 ∧ e1.mentionsNaN = true)) →
      generateEmbeddings env texts =
        .ok ((texts.map sanitizeText).map (specItemResult env)) ∧
      ((texts.map sanitizeText).map (specItemResult env)).length = texts.length ∧
      (∀ s : String, specItemResult env s = none ↔
        ((∃ e1, singleEmbed env s = .inl e1) ∧
         (∃ e2, singleEmbed env (env.summarize s) = .inl e2) ∧
         (∃ e3, singleEmbed env (env.rephrase s) = .inl e3))) ∧
      (∀ (acc : List EmbRec) (mid : ℕ) (now : ℤ),
        ∃ rec, lookupRec (markUnembeddable acc mid "nan"
            (some "all fallbacks exhausted") now) mid "UNEMBEDDABLE" = some rec ∧
          rec.failure_reason = some "nan") := by
  intro env texts e hbatch hnanmsg hnonempty hnan
  refine ⟨?_, by simp, ?_, ?_⟩
  · have hfind : (texts.map sanitizeText).findIdx? (fun s => s = "") = none := by
      rw [List.findIdx?_eq_none_iff]
      intro x hx
      rcases List.mem_map.mp hx with ⟨t, ht, hxe⟩
      subst hxe
      simpa using hnonempty t ht
    have hfb : generateEmbeddingsWithFallback env texts (texts.map sanitizeText) =
        .ok ((texts.map sanitizeText).map (specItemResult env)) := by
      rw [generateEmbeddingsWithFallback]
      exact mapM_except_ok _ _ _ (fun x _ => itemFallback_eq_spec env hnan x)
    simp [generateEmbeddings, hfind, hbatch, hnanmsg, hfb]
  · intro s
    rw [specItemResult]
    rcases h1 : singleEmbed env s with e1 | v1
    · rcases h2 : singleEmbed env (env.summarize s) with e2 | v2
      · rcases h3 : singleEmbed env (env.rephrase s) with e3 | v3
        · simp [h1, h2, h3]
        · simp [h1, h2, h3]
      · simp [h1, h2]
    · simp [h1]
  · intro acc mid now
    refine ⟨markedRec (lookupRec acc mid "UNEMBEDDABLE") mid "nan"
      (some "all fallbacks exhausted") now, lookupRec_markUnembeddable_self _ _ _ _ _, ?_⟩
    rcases lookupRec acc mid "UNEMBEDDABLE" with _ | r
    · rfl
    · rfl

/-- Witness for C3 at a concrete input: the batch `["good", "bad"]`
fails with NaN, the first item succeeds on individual retry, the second
exhausts summarize and rephrase and comes back as `none`. -/
theorem generateEmbeddings_nan_fallback_spec_witness :
    generateEmbeddings nanFallbackEnv ["good", "bad"] =
      .ok [some [FloatVal.fin 1], none] := by
  have h := generateEmbeddings_nan_fallback_spec nanFallbackEnv ["good", "bad"] ⟨true⟩
    (by decide) rfl (by decide)
    (by
      intro s
      by_cases hs : s = "good"
      · subst hs
        exact .inl ⟨[FloatVal.fin 1], rfl⟩
      · refine .inr ⟨⟨true⟩, ?_, rfl⟩
        simp [singleEmbed, nanFallbackEnv, hs])
  rw [h.1]
  rfl

/-- C10.  `search` throws its must-provide error exactly when the query
text is absent (undefined or empty, hence falsy) and all four exemplar
parameters are absent; the error message is fixed; and supplying only
`negativeQuery` or `excludeTerms` has no effect on whether it throws. -/
theorem search_throws_spec :
    ∀ (env : SearchEnv) (db : SearchDB) (params : SearchParams),
      ((∃ e, search env db params = .error e) ↔
        (truthyStr params.query = false ∧ params.likeSession = none ∧
          params.likeProject = none ∧ params.unlikeSession = none ∧
          params.unlikeProject = none)) ∧
      (∀ e, search env db params = .error e →
        e = "Must provide either query or centroid parameters (likeSession, likeProject, etc.)") ∧
      (∀ (nq et : Option String),
        (∃ e, search env db
            { params with negativeQuery := nq, excludeTerms := et } = .error e) ↔
          (∃ e, search env db params = .error e)) := by
  have hmain : ∀ (env : SearchEnv) (db : SearchDB) (params : SearchParams),
      (∃ e, search env db params = .error e) ↔
        (truthyStr params.query = false ∧ params.likeSession = none ∧
          params.likeProject = none ∧ params.unlikeSession = none ∧
          params.unlikeProject = none) := by
    intro env db params
    by_cases hcond : ¬ truthyStr params.query = true ∧ params.likeSession = none ∧
        params.likeProject = none ∧ params.unlikeSession = none ∧
        params.unlikeProject = none
    · rw [search, if_pos hcond]
      simp only [Bool.not_eq_true] at hcond
      simp [hcond]
    · rw [search, if_neg hcond]
      simp only [Bool.not_eq_true] at hcond
      constructor
      · rintro ⟨e, he⟩
        exact absurd he (by simp)
      · intro h
        exact absurd h (by simpa using hcond)
  intro env db params
  refine ⟨hmain env db params, ?_, ?_⟩
  · intro e he
    by_cases hcond : ¬ truthyStr params.query = true ∧ params.likeSession = none ∧
        params.likeProject = none ∧ params.unlikeSession = none ∧
        params.unlikeProject = none
    · rw [search, if_pos hcond] at he
      exact (Except.error.injEq _ _).mp he.symm
    · rw [search, if_neg hcond] at he
      exact absurd he (by simp)
  · intro nq et
    rw [hmain, hmain]

theorem foldl_addResult_spec :
    ∀ (items rs : List SearchResult) (seen : List ℕ),
      seen = rs.map (fun r => r.session_id) →
      ∃ t, (items.foldl addResult (rs, seen)).1 = rs ++ t ∧
        (items.foldl addResult (rs, seen)).2 = (rs ++ t).map (fun r => r.session_id) ∧
        (∀ r ∈ t, r.session_id ∉ seen) ∧
        ((rs.map (fun r => r.session_id)).Nodup →
          ((rs ++ t).map (fun r => r.session_id)).Nodup) := by
  intro items
  induction items with
  | nil =>
    intro rs seen hseen
    exact ⟨[], by simp, by simp [hseen], by simp, by simp⟩
  | cons a items ih =>
    intro rs seen hseen
    rw [List.foldl_cons]
    by_cases hmem : a.session_id ∈ seen
    · rw [show addResult (rs, seen) a = (rs, seen) by simp [addResult, hmem]]
      exact ih rs seen hseen
    · rw [show addResult (rs, seen) a = (rs ++ [a], seen ++ [a.session_id]) by
        simp [addResult, hmem]]
      have hseen' : seen ++ [a.session_id] = (rs ++ [a]).map (fun r => r.session_id) := by
        simp [hseen]
      obtain ⟨t, h1, h2, h3, h4⟩ := ih (rs ++ [a]) _ hseen'
      refine ⟨a :: t, ?_, ?_, ?_, ?_⟩
      · rw [h1, List.append_assoc]
        rfl
      · rw [h2, List.append_assoc]
        rfl
      · intro r hr
        rcases List.mem_cons.mp hr with hra | hrt
        · rw [hra]
          exact hmem
        · intro hcon
          exact h3 r hrt (by simp [hcon])
      · intro hnd
        have hnd' : ((rs ++ [a]).map (fun r => r.session_id)).Nodup := by
          rw [List.map_append]
          refine List.Nodup.append hnd (by simp) ?_
          intro x hx hy
          simp only [List.map_cons, List.map_nil, List.mem_singleton] at hy
          rw [hy] at hx
          rw [hseen] at hmem
          exact hmem hx
        have := h4 hnd'
        rwa [List.append_assoc] at this

theorem sessionPassState_inv (env : SearchEnv) (db : SearchDB) (params : SearchParams) :
    (sessionPassState env db params).2 =
      (sessionPassState env db params).1.map (fun r => r.session_id) ∧
    ((sessionPassState env db params).1.map (fun r => r.session_id)).Nodup := by
  rw [sessionPassState]
  by_cases hm : params.mode.getD .hybrid = .semantic ∨ params.mode.getD .hybrid = .hybrid
  · rw [if_pos hm]
    rcases hc : searchCompose env db params with e | embedding
    · simp
    · obtain ⟨t, h1, h2, h3, h4⟩ := foldl_addResult_spec
        (sessionPassItems db params (parseSinceDate env params.since)
          (searchProjectIds db params)
          (env.querySimilar "convo-sessions" embedding (params.limit.getD 20 * 2)))
        [] [] rfl
      rw [h1, h2]
      exact ⟨rfl, by simpa using h4 (by simp)⟩
  · rw [if_neg hm]
    simp

theorem messagePassState_ext (env : SearchEnv) (db : SearchDB) (params : SearchParams) :
    (∃ t, (messagePassState env db params).1 = (sessionPassState env db params).1 ++ t ∧
      ∀ r ∈ t, r.session_id ∉
        (sessionPassState env db params).1.map (fun r => r.session_id)) ∧
    (messagePassState env db params).2 =
      (messagePassState env db params).1.map (fun r => r.session_id) ∧
    ((messagePassState env db params).1.map (fun r => r.session_id)).Nodup := by
  obtain ⟨hseen, hnd⟩ := sessionPassState_inv env db params
  rw [messagePassState]
  rcases hst : sessionPassState env db params with ⟨rs, seen⟩
  rw [hst] at hseen hnd
  simp only at hseen hnd
  by_cases hm : params.mode.getD .hybrid = .semantic ∨ params.mode.getD .hybrid = .hybrid
  · rw [if_pos hm]
    rcases hc : searchCompose env db params with e | embedding
    · exact ⟨⟨[], by simp, by simp⟩, hseen, hnd⟩
    · obtain ⟨t, h1, h2, h3, h4⟩ := foldl_addResult_spec
        (messagePassItems db (searchProjectIds db params)
          (bestBySessionMap db params (parseSinceDate env params.since)
            (searchProjectIds db params) seen
            (env.querySimilar "convo-messages" embedding (params.limit.getD 20 * 3))))
        rs seen hseen
      refine ⟨⟨t, h1, ?_⟩, ?_, ?_⟩
      · intro r hr
        rw [← hseen]
        exact h3 r hr
      · rw [h1, h2]
      · rw [h1]
        exact h4 hnd
  · rw [if_neg hm]
    exact ⟨⟨[], by simp, by simp⟩, hseen, hnd⟩

theorem searchMerged_ext (env : SearchEnv) (db : SearchDB) (params : SearchParams) :
    (∃ t, searchMerged env db params = (messagePassState env db params).1 ++ t ∧
      ∀ r ∈ t, r.session_id ∉
        (messagePassState env db params).1.map (fun r => r.session_id)) ∧
    ((searchMerged env db params).map (fun r => r.session_id)).Nodup := by
  obtain ⟨-, hseen, hnd⟩ := messagePassState_ext env db params
  rw [searchMerged]
  rcases hst : messagePassState env db params with ⟨rs, seen⟩
  rw [hst] at hseen hnd
  simp only at hseen hnd
  by_cases hm : (params.mode.getD .hybrid = .text ∨ params.mode.getD .hybrid = .hybrid) ∧
      truthyStr params.query = true
  · rw [if_pos hm]
    obtain ⟨t, h1, h2, h3, h4⟩ := foldl_addResult_spec
      (lexicalPassItems env db params (parseSinceDate env params.since)
        (searchProjectIds db params) (params.limit.getD 20))
      rs seen hseen
    refine ⟨⟨t, h1, ?_⟩, ?_⟩
    · intro r hr
      rw [← hseen]
      exact h3 r hr
    · rw [h1]
      exact h4 hnd
  · rw [if_neg hm]
    exact ⟨⟨[], by simp, by simp⟩, hnd⟩

/-- C6.  Within one search call results are deduplicated by session id
with first-strategy-wins in the order session-level semantic,
message-level semantic, lexical: the merged list has pairwise distinct
session ids, and each later pass only appends results whose session id
no earlier pass produced — earlier entries are never removed or
overwritten. -/
theorem search_dedup_spec :
    ∀ (env : SearchEnv) (db : SearchDB) (params : SearchParams),
      ((searchMerged env db params).map (fun r => r.session_id)).Nodup ∧
      (∃ t, (messagePassState env db params).1 =
          (sessionPassState env db params).1 ++ t ∧
        ∀ r ∈ t, r.session_id ∉
          (sessionPassState env db params).1.map (fun r => r.session_id)) ∧
      (∃ t, searchMerged env db params = (messagePassState env db params).1 ++ t ∧
        ∀ r ∈ t, r.session_id ∉
          (messagePassState env db params).1.map (fun r => r.session_id)) :=
  fun env db params =>
    ⟨(searchMerged_ext env db params).2, (messagePassState_ext env db params).1,
      (searchMerged_ext env db params).1⟩

theorem sessionPassItems_filtered (db : SearchDB) (params : SearchParams)
    (sinceDate : Option ℤ) (projectIds : List ℕ) (hits : ChromaHits) :
    ∀ r ∈ sessionPassItems db params sinceDate projectIds hits,
      ∃ s, getSessionById db r.session_id = some s ∧
        passesFilters s params.source params.projectOnly sinceDate projectIds = true := by
  intro r hr
  rcases hits with ⟨ids, dists⟩
  rcases ids with _ | ⟨ids0, rest⟩
  · simp [sessionPassItems] at hr
  · simp only [sessionPassItems] at hr
    rcases List.mem_filterMap.mp hr with ⟨p, hp, hpe⟩
    rcases hparse : jsParseInt (replaceFirst p.2 "session-") with _ | sid
    · simp only [hparse] at hpe
      cases hpe
    · simp only [hparse] at hpe
      rcases hsess : getSessionById db sid with _ | session
      · simp only [hsess] at hpe
        cases hpe
      · simp only [hsess] at hpe
        by_cases hpf : passesFilters session params.source params.projectOnly sinceDate
            projectIds = true
        · rw [if_pos hpf] at hpe
          have hid : session.id = sid ∧ session.deleted_at = none := by
            have := List.find?_some hsess
            simpa using this
          have hrid : r.session_id = session.id := by
            cases hpe
            rfl
          refine ⟨session, ?_, hpf⟩
          rw [hrid, hid.1]
          exact hsess
        · rw [if_neg hpf] at hpe
          cases hpe

theorem getSessionByMessageId_self (db : SearchDB) (mid : ℕ) (session : SessionRow)
    (h : getSessionByMessageId db mid = some session) :
    getSessionById db session.id = some session := by
  rw [getSessionByMessageId] at h
  rcases hm : db.messages.find? fun m => decide (m.id = mid) with _ | m
  · simp only [hm] at h
    cases h
  · simp only [hm] at h
    have hid : session.id = m.session_id ∧ session.deleted_at = none := by
      have := List.find?_some h
      simpa using this
    rw [hid.1]
    exact h

theorem bestBySessionMap_filtered (db : SearchDB) (params : SearchParams)
    (sinceDate : Option ℤ) (projectIds : List ℕ) (seen : List ℕ) (hits : ChromaHits) :
    ∀ p ∈ bestBySessionMap db params sinceDate projectIds seen hits,
      ∃ s, getSessionById db p.1 = some s ∧
        passesFilters s params.source params.projectOnly sinceDate projectIds = true := by
  rcases hids : hits.ids with _ | ⟨ids0, rest⟩
  · intro p hp
    simp [bestBySessionMap, hids] at hp
  · have key : ∀ (l : List (ℕ × String)) (acc : List (ℕ × ℚ)),
        (∀ p ∈ acc, ∃ s, getSessionById db p.1 = some s ∧
          passesFilters s params.source params.projectOnly sinceDate projectIds = true) →
        ∀ p ∈ l.foldl (bestBySessionStep db params sinceDate projectIds seen hits) acc,
          ∃ s, getSessionById db p.1 = some s ∧
            passesFilters s params.source params.projectOnly sinceDate projectIds = true := by
      intro l
      induction l with
      | nil =>
        intro acc hacc p hp
        exact hacc p hp
      | cons a l ih =>
        intro acc hacc p hp
        rw [List.foldl_cons] at hp
        refine ih _ ?_ p hp
        intro q hq
        rw [bestBySessionStep] at hq
        rcases hparse : jsParseInt (replaceFirst a.2 "msg-") with _ | mid
        · simp only [hparse] at hq
          exact hacc q hq
        · simp only [hparse] at hq
          rcases hsess : getSessionByMessageId db mid with _ | session
          · simp only [hsess] at hq
            exact hacc q hq
          · simp only [hsess] at hq
            by_cases hseen : session.id ∈ seen
            · rw [if_pos hseen] at hq
              exact hacc q hq
            · rw [if_neg hseen] at hq
              by_cases hpf : passesFilters session params.source params.projectOnly
                  sinceDate projectIds = true
              · rw [if_neg (by simp [hpf])] at hq
                rcases hfind : acc.find? fun x => decide (x.1 = session.id) with _ | existing
                · simp only [hfind] at hq
                  rcases List.mem_append.mp hq with hq1 | hq2
                  · exact hacc q hq1
                  · have : q = (session.id, scoreAt hits a.1) := by simpa using hq2
                    rw [this]
                    exact ⟨session, getSessionByMessageId_self db mid session hsess, hpf⟩
                · simp only [hfind] at hq
                  by_cases hcmp : existing.2 = 0 ∨ scoreAt hits a.1 > existing.2
                  · rw [if_pos hcmp] at hq
                    rcases List.mem_map.mp hq with ⟨x, hx, hxe⟩
                    by_cases hxk : x.1 = session.id
                    · rw [if_pos hxk] at hxe
                      rw [← hxe]
                      exact ⟨session, getSessionByMessageId_self db mid session hsess, hpf⟩
                    · rw [if_neg hxk] at hxe
                      rw [← hxe]
                      exact hacc x hx
                  · rw [if_neg hcmp] at hq
                    exact hacc q hq
              · rw [if_pos (by simp [hpf])] at hq
                exact hacc q hq
    intro p hp
    rw [bestBySessionMap, hids] at hp
    exact key ids0.enum [] (by simp) p hp

theorem bestRankedPerSession_subset (rows : List (ℕ × ℚ × String)) :
    ∀ r ∈ bestRankedPerSession rows, r ∈ rows := by
  have key : ∀ (l acc : List (ℕ × ℚ × String)),
      (∀ r ∈ acc, r ∈ rows) → (∀ a ∈ l, a ∈ rows) →
      ∀ r ∈ l.foldl (fun acc row =>
        match acc.find? fun q => decide (q.1 = row.1) with
        | none => acc ++ [row]
        | some q =>
          if row.2.1 > q.2.1 then
            acc.map fun x => if x.1 = row.1 then row else x
          else acc) acc, r ∈ rows := by
    intro l
    induction l with
    | nil =>
      intro acc hacc _ r hr
      exact hacc r hr
    | cons a l ih =>
      intro acc hacc hl r hr
      rw [List.foldl_cons] at hr
      refine ih _ ?_ (fun x hx => hl x (by simp [hx])) r hr
      intro q hq
      rcases hfind : acc.find? fun x => decide (x.1 = a.1) with _ | ex
      · simp only [hfind] at hq
        rcases List.mem_append.mp hq with h1 | h2
        · exact hacc q h1
        · rw [show q = a by simpa using h2]
          exact hl a (by simp)
      · simp only [hfind] at hq
        by_cases hcmp : a.2.1 > ex.2.1
        · rw [if_pos hcmp] at hq
          rcases List.mem_map.mp hq with ⟨x, hx, hxe⟩
          by_cases hxk : x.1 = a.1
          · rw [if_pos hxk] at hxe
            rw [← hxe]
            exact hl a (by simp)
          · rw [if_neg hxk] at hxe
            rw [← hxe]
            exact hacc x hx
        · rw [if_neg hcmp] at hq
          exact hacc q hq
  intro r hr
  rw [bestRankedPerSession] at hr
  exact key rows [] (by simp) (fun a ha => ha) r hr

theorem lexicalRows_spec (env : SearchEnv) (db : SearchDB) (params : SearchParams)
    (sinceDate : Option ℤ) (projectIds : List ℕ) :
    ∀ row ∈ lexicalRows env db params sinceDate projectIds,
      ∃ m ∈ db.messages, ∃ content s,
        m.content_text = some content ∧ row.1 = m.session_id ∧ row.2.2 = content ∧
        (db.sessions.find? fun x => decide (x.id = m.session_id)) = some s ∧
        env.tsMatch content (params.query.getD "") = true ∧
        s.deleted_at = none ∧
        (∀ src, params.source = some src → s.source_name = src) ∧
        (∀ d, sinceDate = some d → d ≤ s.started_at) ∧
        (params.projectOnly = true → projectIds ≠ [] → s.project_id ∈ projectIds) ∧
        (truthyStr params.excludeTerms = true →
          env.tsMatch content (params.excludeTerms.getD "") = false) := by
  intro row hrow
  rw [lexicalRows] at hrow
  rcases List.mem_filterMap.mp hrow with ⟨m, hm, hme⟩
  rcases hcond : ftsRowCondition env db params sinceDate projectIds m with _ | pr
  · rw [hcond] at hme
    cases hme
  · rw [hcond] at hme
    simp only [Option.map_some'] at hme
    rw [ftsRowCondition] at hcond
    rcases hct : m.content_text with _ | content
    · rw [hct] at hcond
      cases hcond
    · simp only [hct] at hcond
      rcases hfs : db.sessions.find? fun x => decide (x.id = m.session_id) with _ | s
      · simp only [hfs] at hcond
        cases hcond
      · simp only [hfs] at hcond
        split at hcond
        · rename_i hguard
          have hpr : pr = (s, content) := by
            cases hcond
            rfl
          subst hpr
          have hrowe : row = (m.session_id,
              env.tsRank content (params.query.getD ""), content) :=
            (Option.some.inj hme).symm
          simp only [Bool.and_eq_true, Bool.or_eq_true, Bool.not_eq_true',
            decide_eq_true_eq] at hguard
          obtain ⟨⟨⟨⟨⟨hts, hdel⟩, hsrc⟩, hsince⟩, hproj⟩, hexcl⟩ := hguard
          refine ⟨m, hm, content, s, hct, by rw [hrowe], by rw [hrowe], hfs, hts, hdel,
            ?_, ?_, ?_, ?_⟩
          · intro src hsrceq
            rw [hsrceq] at hsrc
            simpa using hsrc
          · intro d hdeq
            rw [hdeq] at hsince
            simpa using hsince
          · intro hpo hne
            rcases hproj with h1 | h2
            · rw [hpo] at h1
              simp only [Bool.true_and] at h1
              exact absurd (by simpa using h1) hne
            · exact h2
          · intro htr
            rcases hexcl with h1 | h2
            · rw [htr] at h1
              cases h1
            · simpa using h2
        · cases hcond

theorem lexicalPassItems_origin (env : SearchEnv) (db : SearchDB) (params : SearchParams)
    (sinceDate : Option ℤ) (projectIds : List ℕ) (limit : ℕ) :
    ∀ r ∈ lexicalPassItems env db params sinceDate projectIds limit,
      ∃ row ∈ lexicalRows env db params sinceDate projectIds, r.session_id = row.1 := by
  intro r hr
  rw [lexicalPassItems] at hr
  rcases List.mem_filterMap.mp hr with ⟨row, hrow, hre⟩
  have hrow2 : row ∈ bestRankedPerSession (lexicalRows env db params sinceDate projectIds) :=
    List.mem_mergeSort.mp (List.mem_of_mem_take hrow)
  have hrow3 := bestRankedPerSession_subset _ row hrow2
  refine ⟨row, hrow3, ?_⟩
  rcases hfs : db.sessions.find? fun s => decide (s.id = row.1) with _ | s
  · rw [hfs] at hre
    cases hre
  · rw [hfs] at hre
    cases hre
    rfl

/-- C7 counterexample.  (1) In semantic mode with
`excludeTerms = "secret"`, session 1 — whose only message matches the
excluded term according to the full-text oracle — is still added to the
merged result set: the excludeTerms filter is not applied in the
semantic passes.  (2) In text mode with `projectOnly` set and no
project matching cwd, the lexical pass adds session 2 of project 99
even though 99 is in no matched project: the projectOnly filter is
dropped from the lexical query when the matched-project list is empty. -/
theorem search_filters_counterexample :
    ((searchMerged c7SemanticEnv c7SemanticDb c7SemanticParams).map
        (fun r => r.session_id) = [1] ∧
      c7SemanticParams.excludeTerms = some "secret" ∧
      c7SemanticDb.messages = [⟨10, 1, some "the secret plan"⟩] ∧
      c7SemanticEnv.tsMatch "the secret plan" "secret" = true) ∧
    ((searchMerged c7LexEnv c7LexDb c7LexParams).map (fun r => r.session_id) = [2] ∧
      c7LexParams.projectOnly = true ∧
      searchProjectIds c7LexDb c7LexParams = [] ∧
      ∀ s ∈ c7LexDb.sessions, s.id = 2 →
        s.project_id ∉ searchProjectIds c7LexDb c7LexParams) := by
  refine ⟨⟨?_, rfl, rfl, by decide⟩, ⟨?_, rfl, rfl, by decide⟩⟩
  · rfl
  · have hitems : lexicalPassItems c7LexEnv c7LexDb c7LexParams
        (parseSinceDate c7LexEnv c7LexParams.since) (searchProjectIds c7LexDb c7LexParams)
        (c7LexParams.limit.getD 20) =
        [⟨2, "proj2", "/q", "claude_code", "T2", none, 0, 1 + 0, 3⟩] := by
      simp only [lexicalPassItems]
      rw [show bestRankedPerSession (lexicalRows c7LexEnv c7LexDb c7LexParams
          (parseSinceDate c7LexEnv c7LexParams.since)
          (searchProjectIds c7LexDb c7LexParams)) = [(2, 1, "hello there world")] from rfl]
      rw [List.mergeSort_singleton]
      rfl
    rw [show searchMerged c7LexEnv c7LexDb c7LexParams =
        ((lexicalPassItems c7LexEnv c7LexDb c7LexParams
          (parseSinceDate c7LexEnv c7LexParams.since)
          (searchProjectIds c7LexDb c7LexParams)
          (c7LexParams.limit.getD 20)).foldl addResult
            (messagePassState c7LexEnv c7LexDb c7LexParams)).1 by
      rw [searchMerged]
      rw [if_pos ⟨Or.inl rfl, rfl⟩]]
    rw [hitems]
    rfl

/-- C7 (amended).  What each ranking strategy filters before adding a
result, and that nothing is filtered after merging: (1) every result of
the session-level semantic pass comes from a live session passing the
source, since and project-only checks of `passesFilters`; (2) so does
every per-session best score of the message-level semantic pass;
(3) every result of the lexical pass comes from a message row that
matched the query, whose session is live, that passed the source and
since checks, the project-only check only when at least one project
matched the caller's directory, and the hard term-exclusion check only
then applied; (4) whenever search does not throw, its value is exactly
the merged list sorted by score descending and truncated to the limit —
no filter runs after merging. -/
theorem search_filters_spec :
    (∀ (db : SearchDB) (params : SearchParams) (sinceDate : Option ℤ)
        (projectIds : List ℕ) (hits : ChromaHits),
      ∀ r ∈ sessionPassItems db params sinceDate projectIds hits,
        ∃ s, getSessionById db r.session_id = some s ∧
          passesFilters s params.source params.projectOnly sinceDate projectIds = true) ∧
    (∀ (db : SearchDB) (params : SearchParams) (sinceDate : Option ℤ)
        (projectIds : List ℕ) (seen : List ℕ) (hits : ChromaHits),
      ∀ p ∈ bestBySessionMap db params sinceDate projectIds seen hits,
        ∃ s, getSessionById db p.1 = some s ∧
          passesFilters s params.source params.projectOnly sinceDate projectIds = true) ∧
    (∀ (env : SearchEnv) (db : SearchDB) (params : SearchParams) (sinceDate : Option ℤ)
        (projectIds : List ℕ) (limit : ℕ),
      ∀ r ∈ lexicalPassItems env db params sinceDate projectIds limit,
        ∃ m ∈ db.messages, ∃ content s,
          m.content_text = some content ∧ r.session_id = m.session_id ∧
          (db.sessions.find? fun x => decide (x.id = m.session_id)) = some s ∧
          env.tsMatch content (params.query.getD "") = true ∧
          s.deleted_at = none ∧
          (∀ src, params.source = some src → s.source_name = src) ∧
          (∀ d, sinceDate = some d → d ≤ s.started_at) ∧
          (params.projectOnly = true → projectIds ≠ [] → s.project_id ∈ projectIds) ∧
          (truthyStr params.excludeTerms = true →
            env.tsMatch content (params.excludeTerms.getD "") = false)) ∧
    (∀ (env : SearchEnv) (db : SearchDB) (params : SearchParams),
      (truthyStr params.query = true ∨ params.likeSession ≠ none ∨
        params.likeProject ≠ none ∨ params.unlikeSession ≠ none ∨
        params.unlikeProject ≠ none) →
      search env db params = .ok (((searchMerged env db params).mergeSort
        fun a b => decide (b.score ≤ a.score)).take (params.limit.getD 20))) := by
  refine ⟨sessionPassItems_filtered, bestBySessionMap_filtered, ?_, ?_⟩
  · intro env db params sinceDate projectIds limit r hr
    obtain ⟨row, hrow, hrid⟩ := lexicalPassItems_origin env db params sinceDate projectIds
      limit r hr
    obtain ⟨m, hm, content, s, hct, hrow1, _, hfs, hts, hdel, hsrc, hsince, hproj, hexcl⟩ :=
      lexicalRows_spec env db params sinceDate projectIds row hrow
    exact ⟨m, hm, content, s, hct, by rw [hrid, hrow1], hfs, hts, hdel, hsrc, hsince,
      hproj, hexcl⟩
  · intro env db params hok
    rw [search, if_neg]
    rintro ⟨hq, h1, h2, h3, h4⟩
    rcases hok with h | h | h | h | h
    · rw [h] at hq
      cases hq rfl
    · exact h h1
    · exact h h2
    · exact h h3
    · exact h h4

/-- Witness for `search_filters_spec`: each conjunct applied at a
concrete store.  The semantic passes produce session 1 of
`c7SemanticDb` (passing its filters), the lexical pass result of
`c7LexDb` traces back to its matching message row, and a search with a
query returns ok with the sorted, truncated merge. -/
theorem search_filters_spec_witness :
    (∃ s, getSessionById c7SemanticDb 1 = some s ∧
      passesFilters s c7SemanticParams.source c7SemanticParams.projectOnly none [] = true) ∧
    (∃ m ∈ c7LexDb.messages, ∃ content s,
      m.content_text = some content ∧ (2 : ℕ) = m.session_id ∧
      (c7LexDb.sessions.find? fun x => decide (x.id = m.session_id)) = some s ∧
      c7LexEnv.tsMatch content (c7LexParams.query.getD "") = true ∧
      s.deleted_at = none ∧
      (∀ src, c7LexParams.source = some src → s.source_name = src) ∧
      (∀ d, (none : Option ℤ) = some d → d ≤ s.started_at) ∧
      (c7LexParams.projectOnly = true → ([] : List ℕ) ≠ [] → s.project_id ∈ ([] : List ℕ)) ∧
      (truthyStr c7LexParams.excludeTerms = true →
        c7LexEnv.tsMatch content (c7LexParams.excludeTerms.getD "") = false)) ∧
    search c7SemanticEnv c7SemanticDb c7SemanticParams =
      .ok (((searchMerged c7SemanticEnv c7SemanticDb c7SemanticParams).mergeSort
        fun a b => decide (b.score ≤ a.score)).take 20) := by
  have h1 := search_filters_spec.1 c7SemanticDb c7SemanticParams none []
    ⟨[["session-1"]], some [[0]]⟩
    (toResult ⟨1, some "T", none, "proj", "/p", "claude_code", 0, 5, 77, none, none⟩
      (scoreAt ⟨[["session-1"]], some [[0]]⟩ 0) [])
    (List.mem_singleton.mpr rfl)
  have h2 := search_filters_spec.2.2.2 c7SemanticEnv c7SemanticDb c7SemanticParams
    (Or.inl rfl)
  have hlex : lexicalPassItems c7LexEnv c7LexDb c7LexParams none [] 20 =
      [⟨2, "proj2", "/q", "claude_code", "T2", none, 0, 1 + 0, 3⟩] := by
    simp only [lexicalPassItems]
    rw [show bestRankedPerSession (lexicalRows c7LexEnv c7LexDb c7LexParams none []) =
      [(2, 1, "hello there world")] from rfl]
    rw [List.mergeSort_singleton]
    rfl
  have h3 := search_filters_spec.2.2.1 c7LexEnv c7LexDb c7LexParams none [] 20
    ⟨2, "proj2", "/q", "claude_code", "T2", none, 0, 1 + 0, 3⟩
    (by rw [hlex]; exact List.mem_singleton.mpr rfl)
  exact ⟨h1, h3, h2⟩

/-- Witness for `search_throws_spec`: with no query and no exemplar
parameters the search errors with the fixed message, applied at the
empty store. -/
theorem search_throws_spec_witness :
    ∃ e, search searchEmptyEnv searchEmptyDb {} = .error e ∧
      e = "Must provide either query or centroid parameters (likeSession, likeProject, etc.)" := by
  have h := search_throws_spec searchEmptyEnv searchEmptyDb {}
  obtain ⟨e, he⟩ := h.1.mpr ⟨rfl, rfl, rfl, rfl, rfl⟩
  exact ⟨e, he, h.2.1 e he⟩
